import Mathlib

set_option linter.unusedVariables false

/-!
# Verification of the fsearch query parser core

Shallow embedding of `src/fsearch_query_parser.c`: the infix-to-postfix
expression parser (shunting yard with implicit AND), the field/function
dispatcher, the numeric range parser and filter-macro expansion with
cycle detection.

The external lexer is modelled as a list of tokens: `get_next_token`
returns the head (and `Eos` once the list is exhausted), `peek` looks at
the head without consuming.  `GList` result lists are modelled as Lean
lists, with `NULL` corresponding to `[]` (as in GLib, where an empty
`GList` is the null pointer).  The recursion of the C code is modelled
with an explicit fuel parameter; running out of fuel is reported through
the `RunExit.fuel` marker, which no execution of the C code exhibits
(see the termination theorem for claim C5).
-/

/-- Token kinds produced by the external lexer (`FsearchQueryToken`).
`none` is the sentinel used by peeks on an empty stack. -/
inductive FsearchQueryToken where
  | none
  | eos
  | word (s : String)
  | field (s : String)
  | fieldEmpty (s : String)
  | and
  | or
  | not
  | bracketOpen
  | bracketClose
  | equal
  | smaller
  | smallerEq
  | greater
  | greaterEq
  deriving DecidableEq, Repr

/-- The query flag bitset (`FsearchQueryFlags`), one Bool per recognized bit. -/
structure FsearchQueryFlags where
  match_case : Bool
  exact_match : Bool
  files_only : Bool
  folders_only : Bool
  search_in_path : Bool
  regex : Bool
  deriving DecidableEq, Repr

/-- The empty flag set (all bits cleared). -/
def fsearch_query_flags_none : FsearchQueryFlags := ⟨false, false, false, false, false, false⟩

/-- A single query flag bit. -/
inductive FsearchQueryFlag where
  | matchCase
  | exactMatch
  | filesOnly
  | foldersOnly
  | searchInPath
  | regex
  deriving DecidableEq, Repr

/-- `flags |= flag` -/
def flag_add (f : FsearchQueryFlags) : FsearchQueryFlag → FsearchQueryFlags
  | .matchCase => { f with match_case := true }
  | .exactMatch => { f with exact_match := true }
  | .filesOnly => { f with files_only := true }
  | .foldersOnly => { f with folders_only := true }
  | .searchInPath => { f with search_in_path := true }
  | .regex => { f with regex := true }

/-- `flags &= ~flag` -/
def flag_remove (f : FsearchQueryFlags) : FsearchQueryFlag → FsearchQueryFlags
  | .matchCase => { f with match_case := false }
  | .exactMatch => { f with exact_match := false }
  | .filesOnly => { f with files_only := false }
  | .foldersOnly => { f with folders_only := false }
  | .searchInPath => { f with search_in_path := false }
  | .regex => { f with regex := false }

/-- `FsearchQueryNodeComparison` -/
inductive FsearchQueryNodeComparison where
  | equal
  | smaller
  | smallerEq
  | greater
  | greaterEq
  | range
  deriving DecidableEq, Repr

/-- `FsearchQueryNodeOperator` -/
inductive FsearchQueryNodeOperator where
  | and
  | or
  | not
  deriving DecidableEq, Repr

/-- Which numeric leaf constructor of the node factory was used. -/
inductive FsearchNumericKind where
  | size
  | depth
  | childcount
  | childfilecount
  | childfoldercount
  | date_modified
  deriving DecidableEq, Repr

/-- Query nodes produced by the node factory (`FsearchQueryNode`), as a closed
sum type.  Numeric leaves carry `(kind, flags, start, end, comparison)`. -/
inductive FsearchQueryNode where
  | word (s : String) (flags : FsearchQueryFlags)
  | numeric (kind : FsearchNumericKind) (flags : FsearchQueryFlags)
      (start stop : Int) (cmp : FsearchQueryNodeComparison)
  | extension (ext : Option String) (flags : FsearchQueryFlags)
  | contenttype (s : String) (flags : FsearchQueryFlags)
  | parent (s : String) (flags : FsearchQueryFlags)
  | match_everything (flags : FsearchQueryFlags)
  | match_nothing
  | op (o : FsearchQueryNodeOperator)
  deriving DecidableEq, Repr

/-- `fsearch_query_node_new` (word leaf). -/
def fsearch_query_node_new (s : String) (flags : FsearchQueryFlags) : FsearchQueryNode :=
  .word s flags

/-- `fsearch_query_node_new_match_nothing` -/
def fsearch_query_node_new_match_nothing : FsearchQueryNode := .match_nothing

/-- `fsearch_query_node_new_match_everything` -/
def fsearch_query_node_new_match_everything (flags : FsearchQueryFlags) : FsearchQueryNode :=
  .match_everything flags

/-- `fsearch_query_node_new_operator` -/
def fsearch_query_node_new_operator (o : FsearchQueryNodeOperator) : FsearchQueryNode := .op o

/-- `fsearch_query_node_new_size` -/
def fsearch_query_node_new_size (flags : FsearchQueryFlags) (a b : Int)
    (c : FsearchQueryNodeComparison) : FsearchQueryNode := .numeric .size flags a b c

/-- `fsearch_query_node_new_depth` -/
def fsearch_query_node_new_depth (flags : FsearchQueryFlags) (a b : Int)
    (c : FsearchQueryNodeComparison) : FsearchQueryNode := .numeric .depth flags a b c

/-- `fsearch_query_node_new_childcount` -/
def fsearch_query_node_new_childcount (flags : FsearchQueryFlags) (a b : Int)
    (c : FsearchQueryNodeComparison) : FsearchQueryNode := .numeric .childcount flags a b c

/-- `fsearch_query_node_new_childfilecount` -/
def fsearch_query_node_new_childfilecount (flags : FsearchQueryFlags) (a b : Int)
    (c : FsearchQueryNodeComparison) : FsearchQueryNode := .numeric .childfilecount flags a b c

/-- `fsearch_query_node_new_childfoldercount` -/
def fsearch_query_node_new_childfoldercount (flags : FsearchQueryFlags) (a b : Int)
    (c : FsearchQueryNodeComparison) : FsearchQueryNode := .numeric .childfoldercount flags a b c

/-- `fsearch_query_node_new_date_modified` -/
def fsearch_query_node_new_date_modified (flags : FsearchQueryFlags) (a b : Int)
    (c : FsearchQueryNodeComparison) : FsearchQueryNode := .numeric .date_modified flags a b c

/-- `fsearch_query_node_new_extension` (argument `none` models the NULL string). -/
def fsearch_query_node_new_extension (ext : Option String) (flags : FsearchQueryFlags) :
    FsearchQueryNode := .extension ext flags

/-- `fsearch_query_node_new_contenttype` -/
def fsearch_query_node_new_contenttype (s : String) (flags : FsearchQueryFlags) :
    FsearchQueryNode := .contenttype s flags

/-- `fsearch_query_node_new_parent` -/
def fsearch_query_node_new_parent (s : String) (flags : FsearchQueryFlags) :
    FsearchQueryNode := .parent s flags

/-- `INT32_MAX` -/
def int32_max : Int := 2147483647

/-! ## Numeric range parsing (`parse_numeric_field_with_optional_range`) -/

/-- Split a character list at the first occurrence of the two-character
separator `..`; the remainder (which may contain further separators) is
returned whole, mirroring `g_strsplit(s, "..", 2)`. -/
def split_on_dotdot : List Char → List Char × Option (List Char)
  | [] => ([], Option.none)
  | '.' :: '.' :: rest => ([], Option.some rest)
  | c :: rest =>
    let (l, r) := split_on_dotdot rest
    (c :: l, r)

/-- `g_strsplit(s, "..", 2)`: at most two parts; splitting the empty string
yields the empty vector (GLib special case). -/
def g_strsplit_dotdot_2 (s : String) : List String :=
  if s = "" then []
  else
    match split_on_dotdot s.toList with
    | (l, Option.none) => [String.mk l]
    | (l, Option.some r) => [String.mk l, String.mk r]

/-- Result of the numeric range computation: either the `(start, end,
comparison)` triple handed to the node constructor, or the failure path. -/
inductive FsearchNumRangeResult where
  | node (start stop : Int) (cmp : FsearchQueryNodeComparison)
  | fail
  deriving DecidableEq, Repr

/-- The `(start, end, comparison)` triple computed by
`parse_numeric_field_with_optional_range` *before* the final
`if (start == end) comp_type = EQUAL;` normalization; `Option.none` is the
`goto fail` path.  `parse_value_func` is the abstract value-parser callable
`P(str) -> Option (start, end)`. -/
def parse_numeric_range_raw (parse_value_func : String → Option (Int × Int)) (s : String) :
    Option (Int × Int × FsearchQueryNodeComparison) :=
  match g_strsplit_dotdot_2 s with
  | [] => Option.none
  | l :: rest =>
    -- first element: empty means the query starts with `..` (start = 0)
    let step1 : Option (Int × Int) :=
      if l.isEmpty then Option.some (0, 0)
      else parse_value_func l
    match step1 with
    | Option.none => Option.none
    | Option.some (start0, end0) =>
      match rest with
      | [] => Option.some (start0, end0, .range)
      | r :: _ =>
        if r.isEmpty then
          -- query ends with `..`
          Option.some (start0, int32_max, .greaterEq)
        else
          match parse_value_func r with
          | Option.some (_, e) => Option.some (start0, e, .range)
          | Option.none => Option.none

/-- The normalized numeric range result: the code's single
`if (start == end) comp_type = EQUAL;` applied to the raw triple. -/
def parse_numeric_range_core (parse_value_func : String → Option (Int × Int)) (s : String) :
    FsearchNumRangeResult :=
  match parse_numeric_range_raw parse_value_func s with
  | Option.none => .fail
  | Option.some (a, b, c) => .node a b (if a = b then .equal else c)

/-- `parse_numeric_field_with_optional_range`: build the node through the
comparison node constructor, or a `MatchNothing` sentinel on failure. -/
def parse_numeric_field_with_optional_range (field_name : String)
    (parse_value_func : String → Option (Int × Int))
    (new_node_func : FsearchQueryFlags → Int → Int → FsearchQueryNodeComparison → FsearchQueryNode)
    (s : String) (flags : FsearchQueryFlags) : FsearchQueryNode :=
  match parse_numeric_range_core parse_value_func s with
  | .node a b c => new_node_func flags a b c
  | .fail => fsearch_query_node_new_match_nothing

/-! ## Parse context, filters and token helpers -/

/-- A user-defined filter record (`FsearchFilter`): its macro name, its query
text (given pre-lexed, the lexer being external) and its flags. -/
structure FsearchFilter where
  m_name : String
  query : List FsearchQueryToken
  flags : FsearchQueryFlags
  deriving DecidableEq, Repr

/-- The mutable parse context (`FsearchQueryParseContext`).  The filter
registry and the three external value parsers (size, date and integer) are
carried here as immutable data.  `filter_stack` holds registry indices,
modelling the pointer identities used by `g_queue_find` for cycle
detection. -/
structure ParseCtx where
  lexer : List FsearchQueryToken
  operator_stack : List FsearchQueryToken
  filter_stack : List Nat
  last_token : FsearchQueryToken
  filters : List FsearchFilter
  size_parse_fn : String → Option (Int × Int)
  date_parse_fn : String → Option (Int × Int)
  int_parse_fn : String → Option (Int × Int)

/-- `fsearch_query_lexer_peek_next_token` on a token list. -/
def peek_next_token (ts : List FsearchQueryToken) : FsearchQueryToken :=
  ts.headD .eos

/-- `top_query_token`: peek the operator stack (head = top). -/
def top_query_token (st : List FsearchQueryToken) : FsearchQueryToken :=
  st.headD .none

/-- `get_operator_precedence` -/
def get_operator_precedence : FsearchQueryToken → Nat
  | .not => 3
  | .and => 2
  | .or => 1
  | _ => 0

/-- `get_operator_node_for_query_token` (`Option.none` models the NULL
returned for non-operator stack entries such as `BracketOpen`). -/
def get_operator_node_for_query_token : FsearchQueryToken → Option FsearchQueryNode
  | .and => Option.some (fsearch_query_node_new_operator .and)
  | .or => Option.some (fsearch_query_node_new_operator .or)
  | .not => Option.some (fsearch_query_node_new_operator .not)
  | _ => Option.none

/-- `is_operand_token` -/
def is_operand_token : FsearchQueryToken → Bool
  | .word _ => true
  | .field _ => true
  | .fieldEmpty _ => true
  | _ => false

/-- `is_binary_operator_token` -/
def is_binary_operator_token (t : FsearchQueryToken) : Bool :=
  t = FsearchQueryToken.and || t = FsearchQueryToken.or

/-- `is_operator_token` -/
def is_operator_token (t : FsearchQueryToken) : Bool :=
  is_binary_operator_token t || t = FsearchQueryToken.not

/-- `is_operator_token_followed_by_operand`: peek at the lexer; a binary
operator also counts as "followed by an operand" when a NOT comes next
(the FIXME-flagged heuristic of the source). -/
def is_operator_token_followed_by_operand (ts : List FsearchQueryToken)
    (op_token : FsearchQueryToken) : Bool :=
  let next := peek_next_token ts
  (is_binary_operator_token op_token && next = FsearchQueryToken.not)
    || is_operand_token next || next = FsearchQueryToken.bracketOpen

/-- The pop loop of `parse_operator`: pop operators with precedence at least
`prec` off the stack (emitting their nodes in pop order), stopping at the
first one with lower precedence. -/
def pop_ge_prec (prec : Nat) : List FsearchQueryToken →
    List FsearchQueryNode × List FsearchQueryToken
  | [] => ([], [])
  | t :: rest =>
    if prec ≤ get_operator_precedence t then
      let (ns, rest') := pop_ge_prec prec rest
      ((get_operator_node_for_query_token t).toList ++ ns, rest')
    else ([], t :: rest)

/-- `parse_operator`: record the token as last token, pop
higher-or-equal-precedence operators, push the token. -/
def parse_operator (ctx : ParseCtx) (token : FsearchQueryToken) :
    List FsearchQueryNode × ParseCtx :=
  let p := pop_ge_prec (get_operator_precedence token) ctx.operator_stack
  (p.1, { ctx with operator_stack := token :: p.2, last_token := token })

/-- `get_implicit_and_if_necessary`: insert an AND between two adjacent
constructs (operand/`)` before, operand/`(`/NOT after). -/
def get_implicit_and_if_necessary (ctx : ParseCtx) (last next : FsearchQueryToken) :
    List FsearchQueryNode × ParseCtx :=
  if (is_operand_token last || last = FsearchQueryToken.bracketClose)
      && (is_operand_token next || next = FsearchQueryToken.bracketOpen
          || next = FsearchQueryToken.not) then
    parse_operator ctx .and
  else ([], ctx)

/-- The pop loop of `parse_close_bracket`: pop and emit operators until the
matching open bracket (which is discarded).  The exhausted-stack case is
unreachable from the drive paths (the caller checked the bracket counters);
it is modelled as stopping with the empty stack. -/
def pop_until_open : List FsearchQueryToken → List FsearchQueryNode × List FsearchQueryToken
  | [] => ([], [])
  | t :: rest =>
    if t = FsearchQueryToken.bracketOpen then ([], rest)
    else
      let (ns, rest') := pop_until_open rest
      ((get_operator_node_for_query_token t).toList ++ ns, rest')

/-- `parse_close_bracket` -/
def parse_close_bracket (ctx : ParseCtx) : List FsearchQueryNode × ParseCtx :=
  let p := pop_until_open ctx.operator_stack
  (p.1, { ctx with operator_stack := p.2, last_token := .bracketClose })

/-- `parse_open_bracket`: implicit AND if necessary, then push the open
bracket marker. -/
def parse_open_bracket (ctx : ParseCtx) : List FsearchQueryNode × ParseCtx :=
  let p := get_implicit_and_if_necessary ctx ctx.last_token .bracketOpen
  (p.1, { p.2 with operator_stack := FsearchQueryToken.bracketOpen :: p.2.operator_stack,
                   last_token := .bracketOpen })

/-- `consume_consecutive_not_token`: strip the run of NOT tokens following
the one already consumed, flipping the parity flag (initially `true`). -/
def consume_consecutive_not_token : List FsearchQueryToken → Bool →
    Bool × List FsearchQueryToken
  | .not :: rest, uneven => consume_consecutive_not_token rest (!uneven)
  | ts, uneven => (uneven, ts)

/-- `discard_consecutive_binary_operator_tokens` -/
def discard_consecutive_binary_operator_tokens : List FsearchQueryToken →
    List FsearchQueryToken
  | .and :: rest => discard_consecutive_binary_operator_tokens rest
  | .or :: rest => discard_consecutive_binary_operator_tokens rest
  | ts => ts

/-- The flush loop at `out:`: pop every remaining stack entry, emitting
operator nodes (open bracket markers are dropped). -/
def flush_ops : List FsearchQueryToken → List FsearchQueryNode
  | [] => []
  | t :: rest => (get_operator_node_for_query_token t).toList ++ flush_ops rest

/-- `expect_word`: consume the next token; return its text iff it is a Word. -/
def expect_word : List FsearchQueryToken → Option String × List FsearchQueryToken
  | [] => (Option.none, [])
  | t :: rest =>
    match t with
    | .word s => (Option.some s, rest)
    | _ => (Option.none, rest)

/-- `parse_word` -/
def parse_word (s : String) (flags : FsearchQueryFlags) : List FsearchQueryNode :=
  [fsearch_query_node_new s flags]

/-! ## Field functions (argument sub-grammars) -/

/-- The comparison selected by a comparison token (the switch of
`parse_numeric_function`). -/
def comparison_of_token : FsearchQueryToken → FsearchQueryNodeComparison
  | .smaller => .smaller
  | .smallerEq => .smallerEq
  | .greater => .greater
  | .greaterEq => .greaterEq
  | _ => .equal

/-- `parse_numeric_function`: the numeric function argument grammar
(`field:<cmp> <val>`, `field:<val>` or `field:<a>..<b>`). -/
def parse_numeric_function (ctx : ParseCtx) (is_empty_field : Bool)
    (flags : FsearchQueryFlags) (field_name : String)
    (new_node_func : FsearchQueryFlags → Int → Int → FsearchQueryNodeComparison → FsearchQueryNode)
    (parse_value_func : String → Option (Int × Int)) :
    List FsearchQueryNode × ParseCtx :=
  if is_empty_field then
    ([fsearch_query_node_new_match_everything flags], ctx)
  else
    match ctx.lexer with
    | [] => ([fsearch_query_node_new_match_nothing], ctx)
    | t :: rest =>
      match t with
      | .word s =>
        ([parse_numeric_field_with_optional_range field_name parse_value_func new_node_func
            s flags],
         { ctx with lexer := rest })
      | .equal | .smaller | .smallerEq | .greater | .greaterEq =>
        let comp := comparison_of_token t
        let p := expect_word rest
        let ctx2 := { ctx with lexer := p.2 }
        ((match p.1 with
          | Option.some s =>
            match parse_value_func s with
            | Option.some v => [new_node_func flags v.1 v.2 comp]
            | Option.none => [fsearch_query_node_new_match_nothing]
          | Option.none => [fsearch_query_node_new_match_nothing]), ctx2)
      | _ => ([fsearch_query_node_new_match_nothing], { ctx with lexer := rest })

/-- `parse_function_size` -/
def parse_function_size (ctx : ParseCtx) (is_empty_field : Bool) (flags : FsearchQueryFlags) :
    List FsearchQueryNode × ParseCtx :=
  parse_numeric_function ctx is_empty_field flags "size" fsearch_query_node_new_size
    ctx.size_parse_fn

/-- `parse_function_empty`: always exactly `ChildCount(flags, 0, 0, Equal)`,
consuming nothing. -/
def parse_function_empty (ctx : ParseCtx) (is_empty_field : Bool) (flags : FsearchQueryFlags) :
    List FsearchQueryNode × ParseCtx :=
  ([fsearch_query_node_new_childcount flags 0 0 .equal], ctx)

/-- `parse_function_depth` -/
def parse_function_depth (ctx : ParseCtx) (is_empty_field : Bool) (flags : FsearchQueryFlags) :
    List FsearchQueryNode × ParseCtx :=
  parse_numeric_function ctx is_empty_field flags "depth" fsearch_query_node_new_depth
    ctx.int_parse_fn

/-- `parse_function_childcount` -/
def parse_function_childcount (ctx : ParseCtx) (is_empty_field : Bool)
    (flags : FsearchQueryFlags) : List FsearchQueryNode × ParseCtx :=
  parse_numeric_function ctx is_empty_field flags "childcount"
    fsearch_query_node_new_childcount ctx.int_parse_fn

/-- `parse_function_childfilecount` -/
def parse_function_childfilecount (ctx : ParseCtx) (is_empty_field : Bool)
    (flags : FsearchQueryFlags) : List FsearchQueryNode × ParseCtx :=
  parse_numeric_function ctx is_empty_field flags "childfilecount"
    fsearch_query_node_new_childfilecount ctx.int_parse_fn

/-- `parse_function_childfoldercount` -/
def parse_function_childfoldercount (ctx : ParseCtx) (is_empty_field : Bool)
    (flags : FsearchQueryFlags) : List FsearchQueryNode × ParseCtx :=
  parse_numeric_function ctx is_empty_field flags "childfoldercount"
    fsearch_query_node_new_childfoldercount ctx.int_parse_fn

/-- `parse_function_date_modified` -/
def parse_function_date_modified (ctx : ParseCtx) (is_empty_field : Bool)
    (flags : FsearchQueryFlags) : List FsearchQueryNode × ParseCtx :=
  parse_numeric_function ctx is_empty_field flags "date-modified"
    fsearch_query_node_new_date_modified ctx.date_parse_fn

/-- `parse_function_extension` -/
def parse_function_extension (ctx : ParseCtx) (is_empty_field : Bool)
    (flags : FsearchQueryFlags) : List FsearchQueryNode × ParseCtx :=
  if is_empty_field then
    ([fsearch_query_node_new_extension Option.none flags], ctx)
  else
    let p := expect_word ctx.lexer
    let ctx' := { ctx with lexer := p.2 }
    ((match p.1 with
      | Option.some s => [fsearch_query_node_new_extension (Option.some s) flags]
      | Option.none => [fsearch_query_node_new_match_nothing]), ctx')

/-- `parse_function_contenttype` -/
def parse_function_contenttype (ctx : ParseCtx) (is_empty_field : Bool)
    (flags : FsearchQueryFlags) : List FsearchQueryNode × ParseCtx :=
  if is_empty_field then
    ([fsearch_query_node_new_match_everything flags], ctx)
  else
    let p := expect_word ctx.lexer
    let ctx' := { ctx with lexer := p.2 }
    ((match p.1 with
      | Option.some s => [fsearch_query_node_new_contenttype s flags]
      | Option.none => [fsearch_query_node_new_match_nothing]), ctx')

/-- `parse_function_parent` -/
def parse_function_parent (ctx : ParseCtx) (is_empty_field : Bool)
    (flags : FsearchQueryFlags) : List FsearchQueryNode × ParseCtx :=
  let parent_flags := flag_add flags .exactMatch
  if is_empty_field then
    ([fsearch_query_node_new_parent "" parent_flags], ctx)
  else
    let p := expect_word ctx.lexer
    let ctx' := { ctx with lexer := p.2 }
    ((match p.1 with
      | Option.some s => [fsearch_query_node_new_parent s parent_flags]
      | Option.none => [fsearch_query_node_new_match_nothing]), ctx')

/-- ADD_FLAG / REMOVE_FLAG -/
inductive FsearchQueryFlagOperation where
  | add_flag
  | remove_flag
  deriving DecidableEq, Repr

/-- `supported_modifiers` (name, flag, operation), in source order. -/
def supported_modifiers : List (String × FsearchQueryFlag × FsearchQueryFlagOperation) :=
  [("case", .matchCase, .add_flag),
   ("nocase", .matchCase, .remove_flag),
   ("exact", .exactMatch, .add_flag),
   ("file", .filesOnly, .add_flag),
   ("nofileonly", .filesOnly, .remove_flag),
   ("files", .filesOnly, .add_flag),
   ("nofilesonly", .filesOnly, .remove_flag),
   ("folder", .foldersOnly, .add_flag),
   ("nofolderonly", .foldersOnly, .remove_flag),
   ("folders", .foldersOnly, .add_flag),
   ("nofoldersonly", .foldersOnly, .remove_flag),
   ("path", .searchInPath, .add_flag),
   ("nopath", .searchInPath, .remove_flag),
   ("regex", .regex, .add_flag),
   ("noregex", .regex, .remove_flag)]

/-- `supported_functions` (name, parser), in source order. -/
def supported_functions :
    List (String × (ParseCtx → Bool → FsearchQueryFlags → List FsearchQueryNode × ParseCtx)) :=
  [("childcount", parse_function_childcount),
   ("childfilecount", parse_function_childfilecount),
   ("childfoldercount", parse_function_childfoldercount),
   ("contenttype", parse_function_contenttype),
   ("depth", parse_function_depth),
   ("dm", parse_function_date_modified),
   ("datemodified", parse_function_date_modified),
   ("empty", parse_function_empty),
   ("ext", parse_function_extension),
   ("parent", parse_function_parent),
   ("parents", parse_function_depth),
   ("size", parse_function_size)]

/-- Apply a modifier's flag operation to the flag set. -/
def apply_flag_operation (flags : FsearchQueryFlags) (flag : FsearchQueryFlag)
    (o : FsearchQueryFlagOperation) : FsearchQueryFlags :=
  match o with
  | .add_flag => flag_add flags flag
  | .remove_flag => flag_remove flags flag

/-- Propagate a filter's `SearchInPath`, `MatchCase` and `Regex` bits into the
current flags (lines 408-416 of the source). -/
def apply_filter_flags (flags : FsearchQueryFlags) (ff : FsearchQueryFlags) :
    FsearchQueryFlags :=
  { flags with
      search_in_path := flags.search_in_path || ff.search_in_path,
      match_case := flags.match_case || ff.match_case,
      regex := flags.regex || ff.regex }

/-! ## The expression parser (`fsearch_query_parser_parse_expression`)

The C recursion (expression loop ↔ field dispatcher ↔ modifier sub-parser ↔
filter-macro expansion) is modelled as one fueled step function over a call
descriptor, so that every run is a plain structural recursion on the fuel.
`RunExit` records which return path was taken: the end-of-stream flush
(`eos`), the matching close bracket of an `in_open_bracket` call (`closed`),
the whole-query abort on an unbalanced close bracket (`abort`), an ordinary
return of a sub-parser (`ok`), or fuel exhaustion (`fuel`, which has no C
counterpart and never occurs for sufficient fuel). -/

/-- Which return path a modelled call took. -/
inductive RunExit where
  | ok
  | eos
  | closed
  | abort
  | fuel
  deriving DecidableEq, Repr

/-- Call descriptors for the mutually recursive parser functions.
`expr_loop` carries the local state of `fsearch_query_parser_parse_expression`
(its bracket counters and accumulated result), `field_call` is `parse_field`,
`modifier_call` is `parse_modifier` and `filter_scan i` is the loop of
`parse_filter_macros` starting at registry index `i`. -/
inductive RunCall where
  | expr_loop (in_open_bracket : Bool) (flags : FsearchQueryFlags)
      (num_open num_close : Nat) (res : List FsearchQueryNode)
  | field_call (field_name : String) (is_empty_field : Bool) (flags : FsearchQueryFlags)
  | modifier_call (is_empty_field : Bool) (flags : FsearchQueryFlags)
  | filter_scan (idx : Nat) (field_name : String) (flags : FsearchQueryFlags)

/-- Lines 742-748 of the source: if the parsed construct produced nodes,
optionally prepend an implicit AND (unless the NOT branch already handled
it), record the token as last token, and append the nodes. -/
def loop_append (skip_implicit : Bool) (token last_token : FsearchQueryToken)
    (res to_append : List FsearchQueryNode) (ctx : ParseCtx) :
    List FsearchQueryNode × ParseCtx :=
  if to_append.isEmpty then (res, ctx)
  else
    let p :=
      if skip_implicit then ([], ctx)
      else get_implicit_and_if_necessary ctx last_token token
    (res ++ p.1 ++ to_append, { p.2 with last_token := token })

/-- The end-of-stream flush (`out:`): pop all remaining operators onto the
result. -/
def finish_eos (res : List FsearchQueryNode) (ctx : ParseCtx) :
    List FsearchQueryNode × ParseCtx × RunExit :=
  (res ++ flush_ops ctx.operator_stack, { ctx with operator_stack := [] }, .eos)

/-- One fueled interpreter for the four mutually recursive C functions.
Each branch is a direct transliteration of the corresponding source lines;
every recursive call spends one unit of fuel. -/
def parse_run : Nat → RunCall → ParseCtx → List FsearchQueryNode × ParseCtx × RunExit
  | 0, c, ctx =>
    (match c with
     | .expr_loop _ _ _ _ res => (res, ctx, .fuel)
     | _ => ([], ctx, .fuel))
  | fuel + 1, .expr_loop io flags num_open num_close res, ctx =>
    match ctx.lexer with
    | [] => finish_eos res ctx
    | t :: rest =>
      let last_token := ctx.last_token
      let ctx := { ctx with lexer := rest }
      match t with
      | .eos => finish_eos res ctx
      | .not =>
        let c := consume_consecutive_not_token ctx.lexer true
        let ctx := { ctx with lexer := c.2 }
        if c.1 && is_operator_token_followed_by_operand c.2 .not then
          let p1 := get_implicit_and_if_necessary ctx last_token .not
          let p2 := parse_operator p1.2 .not
          let q := loop_append true .not last_token res (p1.1 ++ p2.1) p2.2
          parse_run fuel (.expr_loop io flags num_open num_close q.1) q.2
        else
          parse_run fuel (.expr_loop io flags num_open num_close res) ctx
      | .and =>
        if is_operator_token_followed_by_operand ctx.lexer .and then
          let p := parse_operator ctx .and
          let q := loop_append false .and last_token res p.1 p.2
          parse_run fuel (.expr_loop io flags num_open num_close q.1) q.2
        else
          parse_run fuel (.expr_loop io flags num_open num_close res) ctx
      | .or =>
        if is_operator_token_followed_by_operand ctx.lexer .or then
          let p := parse_operator ctx .or
          let q := loop_append false .or last_token res p.1 p.2
          parse_run fuel (.expr_loop io flags num_open num_close q.1) q.2
        else
          parse_run fuel (.expr_loop io flags num_open num_close res) ctx
      | .bracketOpen =>
        let p := parse_open_bracket ctx
        let ctx2 := { p.2 with
          lexer := discard_consecutive_binary_operator_tokens p.2.lexer }
        let q := loop_append false .bracketOpen last_token res p.1 ctx2
        parse_run fuel (.expr_loop io flags (num_open + 1) num_close q.1) q.2
      | .bracketClose =>
        if num_close < num_open then
          let p := parse_close_bracket ctx
          if io && num_close + 1 = num_open then
            (res ++ p.1, p.2, .closed)
          else
            let q := loop_append false .bracketClose last_token res p.1 p.2
            parse_run fuel (.expr_loop io flags num_open (num_close + 1) q.1) q.2
        else
          ([fsearch_query_node_new_match_nothing], ctx, .abort)
      | .word s =>
        let q := loop_append false (.word s) last_token res (parse_word s flags) ctx
        parse_run fuel (.expr_loop io flags num_open num_close q.1) q.2
      | .field s =>
        let h := parse_run fuel (.field_call s false flags) ctx
        if h.2.2 = .fuel then (res, h.2.1, .fuel)
        else
          let q := loop_append false (.field s) last_token res h.1 h.2.1
          parse_run fuel (.expr_loop io flags num_open num_close q.1) q.2
      | .fieldEmpty s =>
        let h := parse_run fuel (.field_call s true flags) ctx
        if h.2.2 = .fuel then (res, h.2.1, .fuel)
        else
          let q := loop_append false (.fieldEmpty s) last_token res h.1 h.2.1
          parse_run fuel (.expr_loop io flags num_open num_close q.1) q.2
      | _ =>
        -- unexpected token (comparison operators, None): ignored
        parse_run fuel (.expr_loop io flags num_open num_close res) ctx
  | fuel + 1, .field_call field_name is_empty_field flags, ctx =>
    -- parse_field: macros have precedence over native fields
    let h := parse_run fuel (.filter_scan 0 field_name flags) ctx
    if h.2.2 = .fuel then ([], h.2.1, .fuel)
    else if !h.1.isEmpty then (h.1, h.2.1, .ok)
    else
      match supported_modifiers.find? (fun m => m.1 == field_name) with
      | Option.some m =>
        parse_run fuel
          (.modifier_call is_empty_field (apply_flag_operation flags m.2.1 m.2.2)) h.2.1
      | Option.none =>
        match supported_functions.find? (fun f => f.1 == field_name) with
        | Option.some f =>
          let p := f.2 h.2.1 is_empty_field flags
          (p.1, p.2, .ok)
        | Option.none => ([fsearch_query_node_new_match_nothing], h.2.1, .ok)
  | fuel + 1, .modifier_call is_empty_field flags, ctx =>
    if is_empty_field then ([fsearch_query_node_new_match_everything flags], ctx, .ok)
    else
      match ctx.lexer with
      | [] => ([fsearch_query_node_new_match_nothing], ctx, .ok)
      | t :: rest =>
        let ctx := { ctx with lexer := rest }
        match t with
        | .word s => (parse_word s flags, ctx, .ok)
        | .bracketOpen =>
          let p := parse_open_bracket ctx
          let h := parse_run fuel (.expr_loop true flags 1 0 []) p.2
          (p.1 ++ h.1, h.2.1, if h.2.2 = .fuel then .fuel else .ok)
        | .field s => parse_run fuel (.field_call s false flags) ctx
        | .fieldEmpty s => parse_run fuel (.field_call s true flags) ctx
        | _ => ([fsearch_query_node_new_match_nothing], ctx, .ok)
  | fuel + 1, .filter_scan i field_name flags, ctx =>
    match ctx.filters[i]? with
    | Option.none => ([], ctx, .ok)
    | Option.some filter =>
      if filter.m_name ≠ field_name then
        parse_run fuel (.filter_scan (i + 1) field_name flags) ctx
      else if ctx.filter_stack.contains i then
        -- nested macro detected: stop parsing of this macro
        ([], ctx, .ok)
      else if filter.query.isEmpty then
        -- empty macro query: nothing to process
        ([], ctx, .ok)
      else
        let flags2 := apply_filter_flags flags filter.flags
        let ctx1 := { ctx with
          lexer := filter.query,
          operator_stack := [],
          filter_stack := ctx.filter_stack ++ [i] }
        let h := parse_run fuel (.expr_loop false flags2 0 0 []) ctx1
        let ctx3 := { h.2.1 with
          lexer := ctx.lexer,
          operator_stack := ctx.operator_stack,
          filter_stack := h.2.1.filter_stack.dropLast }
        (h.1, ctx3, if h.2.2 = .fuel then .fuel else .ok)

/-- `fsearch_query_parser_parse_expression` (with explicit fuel): the local
bracket counter starts at 1 iff the call is from inside an open bracket. -/
def fsearch_query_parser_parse_expression (fuel : Nat) (ctx : ParseCtx)
    (in_open_bracket : Bool) (flags : FsearchQueryFlags) :
    List FsearchQueryNode × ParseCtx × RunExit :=
  parse_run fuel (.expr_loop in_open_bracket flags (if in_open_bracket then 1 else 0) 0 []) ctx

/-- `parse_field` (with explicit fuel). -/
def parse_field (fuel : Nat) (ctx : ParseCtx) (field_name : String)
    (is_empty_field : Bool) (flags : FsearchQueryFlags) :
    List FsearchQueryNode × ParseCtx × RunExit :=
  parse_run fuel (.field_call field_name is_empty_field flags) ctx

/-- `parse_modifier` (with explicit fuel). -/
def parse_modifier (fuel : Nat) (ctx : ParseCtx) (is_empty_field : Bool)
    (flags : FsearchQueryFlags) : List FsearchQueryNode × ParseCtx × RunExit :=
  parse_run fuel (.modifier_call is_empty_field flags) ctx

/-- `parse_filter_macros` (with explicit fuel): the scan over the filter
registry starting at index 0. -/
def parse_filter_macros (fuel : Nat) (ctx : ParseCtx) (field_name : String)
    (flags : FsearchQueryFlags) : List FsearchQueryNode × ParseCtx × RunExit :=
  parse_run fuel (.filter_scan 0 field_name flags) ctx

/-- A fresh top-level parse context over a token stream: empty operator and
filter stacks, last token `None`, and unspecified external value parsers
(they are irrelevant to the claims that use this context). -/
def init_parse_ctx (filters : List FsearchFilter) (ts : List FsearchQueryToken) : ParseCtx :=
  { lexer := ts
    operator_stack := []
    filter_stack := []
    last_token := .none
    filters := filters
    size_parse_fn := fun _ => Option.none
    date_parse_fn := fun _ => Option.none
    int_parse_fn := fun _ => Option.none }

/-! ## The postfix stack evaluator of claim C1 -/

/-- One step of the abstract stack evaluator: leaves push one value,
And/Or pop two and push one, Not pops one and pushes one.  The depth is
tracked; popping from an empty stack is an underflow (`Option.none`). -/
def postfix_stack_step (d : Option Nat) (n : FsearchQueryNode) : Option Nat :=
  match d with
  | Option.none => Option.none
  | Option.some k =>
    match n with
    | .op .and | .op .or => if 2 ≤ k then Option.some (k - 1) else Option.none
    | .op .not => if 1 ≤ k then Option.some k else Option.none
    | _ => Option.some (k + 1)

/-- Run the stack evaluator over a postfix node list, starting from the
empty stack; the result is the final stack depth, or `Option.none` on
underflow. -/
def postfix_stack_count (l : List FsearchQueryNode) : Option Nat :=
  l.foldl postfix_stack_step (Option.some 0)

/-- A node list is a well-formed postfix expression iff the stack evaluator
terminates with exactly one value on the stack. -/
def is_well_formed_postfix (l : List FsearchQueryNode) : Bool :=
  postfix_stack_count l = Option.some 1

/-! ## Bracket counting for claim C3 -/

/-- Number of close-bracket tokens in a list. -/
def count_close_brackets (ts : List FsearchQueryToken) : Nat :=
  ts.countP (fun t => t = FsearchQueryToken.bracketClose)

/-- Number of open-bracket tokens in a list. -/
def count_open_brackets (ts : List FsearchQueryToken) : Nat :=
  ts.countP (fun t => t = FsearchQueryToken.bracketOpen)

/-- Some prefix of the stream contains more close brackets than open
brackets. -/
def has_excess_close_bracket (ts : List FsearchQueryToken) : Prop :=
  ∃ n, count_open_brackets (ts.take n) < count_close_brackets (ts.take n)

/-- Tokens that are handled entirely by the main expression loop: everything
except fields (whose sub-parsers may consume bracket tokens as arguments)
and the end-of-stream sentinel. -/
def simple_token : FsearchQueryToken → Bool
  | .field _ => false
  | .fieldEmpty _ => false
  | .eos => false
  | _ => true

/-! ## Claim theorems -/

/-- Abbreviations used by the concrete claim instances. -/
def sample_value_fn : String → Option (Int × Int) :=
  fun t => if t = "3" then Option.some ((3 : Int), 3) else Option.none

/-- A value callable mapping `"0"` to the interval `(0, 0)`, standing in for
the integer parser on that input. -/
def sample_zero_fn : String → Option (Int × Int) :=
  fun t => if t = "0" then Option.some ((0 : Int), 0) else Option.none

/-- A value callable mapping `"2147483647"` to `(INT32_MAX, INT32_MAX)`. -/
def sample_intmax_fn : String → Option (Int × Int) :=
  fun t => if t = "2147483647" then Option.some (int32_max, int32_max) else Option.none

/-- C1: the parser does *not* always return a well-formed postfix list.  On
the token stream of the query `a AND NOT` (Word "a", And, Not), the AND is
pushed because the lookahead sees the NOT (the FIXME-flagged heuristic of
`is_operator_token_followed_by_operand`), but no operand ever follows, so
the top-level parse returns `[Word "a", And]`, whose stack evaluation
underflows instead of ending with exactly one value. -/
theorem c1_postfix_validity_failing_input :
    (fsearch_query_parser_parse_expression 9
        (init_parse_ctx [] [.word "a", .and, .not]) false fsearch_query_flags_none).1
      = [fsearch_query_node_new "a" fsearch_query_flags_none,
         fsearch_query_node_new_operator .and]
    ∧ is_well_formed_postfix
        (fsearch_query_parser_parse_expression 9
          (init_parse_ctx [] [.word "a", .and, .not]) false fsearch_query_flags_none).1
      = false := by
  constructor
  · rfl
  · rfl

/-- C2 (counterexample): the operator stack is *not* empty on every return
path.  On the stream of `a AND b )` the unbalanced close bracket aborts the
top-level parse while the pending AND is still on the operator stack. -/
theorem c2_operator_stack_counterexample :
    (fsearch_query_parser_parse_expression 9
        (init_parse_ctx [] [.word "a", .and, .word "b", .bracketClose])
        false fsearch_query_flags_none).2.1.operator_stack
      = [FsearchQueryToken.and]
    ∧ [FsearchQueryToken.and] ≠ ([] : List FsearchQueryToken) := by
  constructor
  · rfl
  · decide

/-- C4 (counterexample): on the input word consisting of exactly the
separator `..` the numeric range parser does *not* fail: both split parts
are empty, so the code takes the `start = 0` branch and then the
`end = INT32_MAX, GreaterEq` branch, and returns a regular comparison node,
not the `MatchNothing` sentinel. -/
theorem c4_dotdot_counterexample :
    parse_numeric_field_with_optional_range "depth" (fun _ => Option.none)
        fsearch_query_node_new_depth ".." fsearch_query_flags_none
      = fsearch_query_node_new_depth fsearch_query_flags_none 0 int32_max .greaterEq
    ∧ fsearch_query_node_new_depth fsearch_query_flags_none 0 int32_max .greaterEq
      ≠ fsearch_query_node_new_match_nothing := by
  constructor
  · rfl
  · decide

/-- C4 (amended): for every value-parser callable and every node
constructor, the input word `..` (both split parts empty) yields the node
`N(flags, 0, INT32_MAX, GreaterEq)` — the open-ended-range treatment, not a
parse failure. -/
theorem c4_dotdot_amended (parse_value_func : String → Option (Int × Int))
    (new_node_func : FsearchQueryFlags → Int → Int → FsearchQueryNodeComparison → FsearchQueryNode)
    (field_name : String) (flags : FsearchQueryFlags) :
    parse_numeric_field_with_optional_range field_name parse_value_func new_node_func
        ".." flags
      = new_node_func flags 0 int32_max .greaterEq := by
  rfl

/-- C10: whenever the numeric range computation produces a node whose start
and end agree, its comparison is `Equal` — the normalization is applied
after every input shape.  In particular the open-ended form `..0` (parsed
end equal to the default start 0) and `2147483647..` (parsed start equal to
the INT32_MAX sentinel end) both yield `Equal`, not `Range`/`GreaterEq`. -/
theorem c10_equal_range_normalization :
    (∀ (p : String → Option (Int × Int)) (s : String) (a b : Int)
        (c : FsearchQueryNodeComparison),
      parse_numeric_range_core p s = .node a b c → a = b → c = .equal)
    ∧ parse_numeric_range_core sample_zero_fn "..0" = .node 0 0 .equal
    ∧ parse_numeric_range_core sample_intmax_fn "2147483647.."
        = .node int32_max int32_max .equal := by
  refine ⟨?_, rfl, rfl⟩
  intro p s a b c h hab
  unfold parse_numeric_range_core at h
  cases hraw : parse_numeric_range_raw p s with
  | none => rw [hraw] at h; exact absurd h (by simp)
  | some t =>
    obtain ⟨a', b', c'⟩ := t
    rw [hraw] at h
    simp only [FsearchNumRangeResult.node.injEq] at h
    obtain ⟨ha, hb, hc⟩ := h
    subst ha; subst hb; subst hc
    simp [hab]

/-- C10 (witness): the general normalization statement applied to the
concrete input `3..3` with a concrete value callable. -/
theorem c10_equal_range_normalization_witness :
    parse_numeric_range_core sample_value_fn "3..3" = .node 3 3 .equal
    ∧ FsearchQueryNodeComparison.equal = .equal := by
  exact ⟨rfl, c10_equal_range_normalization.1 sample_value_fn "3..3" 3 3 .equal rfl rfl⟩

/-- C6: flag isolation with value semantics.  For every initial flag set
and words `a`, `b`, the top-level parse of `case:a nocase:b` attaches
`MatchCase` only to the first word: the second field receives the caller's
original flags (the loop passes its own `flags` value to every construct),
so the sibling word carries `flags` with `MatchCase` removed by its own
`nocase` modifier and is otherwise unaffected by the first modifier.
The parse works for any fuel of at least 6. -/
theorem c6_flag_isolation (f : Nat) (a b : String) (flags : FsearchQueryFlags) :
    (fsearch_query_parser_parse_expression (f + 6)
        (init_parse_ctx [] [.field "case", .word a, .field "nocase", .word b])
        false flags).1
      = [fsearch_query_node_new a (flag_add flags .matchCase),
         fsearch_query_node_new b (flag_remove flags .matchCase),
         fsearch_query_node_new_operator .and] := by
  rfl

/-- C8: implicit AND idempotence.  For all words `a`, `b` and any flag set,
the inputs `a b` (adjacent operands) and `a AND b` (explicit AND) produce
identical results — output list, final context and exit path — because the
implicit AND is inserted through the very same `parse_operator` pop rule as
an explicit AND.  Any fuel of at least 4 completes both parses. -/
theorem c8_implicit_and_idempotent (f : Nat) (a b : String) (flags : FsearchQueryFlags) :
    fsearch_query_parser_parse_expression (f + 4)
        (init_parse_ctx [] [.word a, .word b]) false flags
      = fsearch_query_parser_parse_expression (f + 4)
        (init_parse_ctx [] [.word a, .and, .word b]) false flags := by
  rfl

/-- C9 (counterexample): the argument of `empty:` is *not* suppressed from
the output.  On the stream of `empty:foo` (Field "empty" followed by the
argument word), `parse_function_empty` consumes nothing, so the word `foo`
is parsed as an ordinary sibling operand joined by an implicit AND — the
output is not the single ChildCount node the claim predicts. -/
theorem c9_empty_argument_counterexample :
    (fsearch_query_parser_parse_expression 9
        (init_parse_ctx [] [.field "empty", .word "foo"]) false fsearch_query_flags_none).1
      = [fsearch_query_node_new_childcount fsearch_query_flags_none 0 0 .equal,
         fsearch_query_node_new "foo" fsearch_query_flags_none,
         fsearch_query_node_new_operator .and]
    ∧ [fsearch_query_node_new_childcount fsearch_query_flags_none 0 0 .equal,
       fsearch_query_node_new "foo" fsearch_query_flags_none,
       fsearch_query_node_new_operator .and]
      ≠ [fsearch_query_node_new_childcount fsearch_query_flags_none 0 0 .equal] := by
  constructor
  · rfl
  · decide

/-- C9 (amended): every occurrence of the `empty` field emits exactly the
one node `ChildCount(flags, 0, 0, Equal)` and consumes no further tokens;
a following argument word is therefore not absorbed by `empty` but parsed
as a separate operand. -/
theorem c9_empty_emits_one_childcount (ctx : ParseCtx) (is_empty_field : Bool)
    (flags : FsearchQueryFlags) :
    parse_function_empty ctx is_empty_field flags
      = ([fsearch_query_node_new_childcount flags 0 0 .equal], ctx) := by
  rfl

/-- Consuming a non-NOT token stops the NOT-run stripper immediately. -/
theorem consume_not_skip (t : FsearchQueryToken) (rest : List FsearchQueryToken)
    (b : Bool) (ht : t ≠ FsearchQueryToken.not) :
    consume_consecutive_not_token (t :: rest) b = (b, t :: rest) := by
  cases t <;> first
    | exact absurd rfl ht
    | simp [consume_consecutive_not_token]

/-- Stripping an even run of NOT tokens flips the parity flag back to its
initial value and leaves the remainder (which starts with a non-NOT token)
untouched. -/
theorem consume_not_even (k : Nat) (b : Bool) (t : FsearchQueryToken)
    (rest : List FsearchQueryToken) (ht : t ≠ FsearchQueryToken.not) :
    consume_consecutive_not_token
        (List.replicate (2 * k) FsearchQueryToken.not ++ t :: rest) b
      = (b, t :: rest) := by
  induction k generalizing b with
  | zero =>
    simp only [Nat.mul_zero, List.replicate_zero, List.nil_append]
    exact consume_not_skip t rest b ht
  | succ j ih =>
    have h : 2 * (j + 1) = (2 * j + 1) + 1 := by omega
    rw [h, List.replicate_succ, List.replicate_succ]
    simp only [List.cons_append, consume_consecutive_not_token]
    rw [List.append_eq, ih (!!b)]
    simp

/-- Stripping an odd run of NOT tokens flips the parity flag. -/
theorem consume_not_odd (k : Nat) (b : Bool) (t : FsearchQueryToken)
    (rest : List FsearchQueryToken) (ht : t ≠ FsearchQueryToken.not) :
    consume_consecutive_not_token
        (List.replicate (2 * k + 1) FsearchQueryToken.not ++ t :: rest) b
      = (!b, t :: rest) := by
  rw [List.replicate_succ]
  simp only [List.cons_append, consume_consecutive_not_token]
  exact consume_not_even k (!b) t rest ht

/-- An even, non-empty run of NOT tokens before a non-NOT token is discarded
in a single loop iteration: the parse continues on the remaining stream
exactly as if the run were absent (one unit of fuel accounts for the
discarded iteration). -/
theorem expr_loop_not_even (n k : Nat) (t : FsearchQueryToken)
    (rest : List FsearchQueryToken) (io : Bool) (flags : FsearchQueryFlags)
    (no nc : Nat) (res : List FsearchQueryNode) (ctx : ParseCtx)
    (ht : t ≠ FsearchQueryToken.not) (hk : 1 ≤ k) :
    parse_run (n + 1) (.expr_loop io flags no nc res)
        { ctx with lexer := List.replicate (2 * k) FsearchQueryToken.not ++ t :: rest }
      = parse_run n (.expr_loop io flags no nc res) { ctx with lexer := t :: rest } := by
  obtain ⟨j, rfl⟩ : ∃ j, k = j + 1 := ⟨k - 1, by omega⟩
  have h : 2 * (j + 1) = (2 * j + 1) + 1 := by omega
  rw [h, List.replicate_succ]
  simp only [List.cons_append, parse_run]
  rw [consume_not_odd j true t rest ht]
  simp

/-- An odd run of NOT tokens before a non-NOT token behaves exactly like a
single NOT in front of the remaining stream. -/
theorem expr_loop_not_odd (n k : Nat) (t : FsearchQueryToken)
    (rest : List FsearchQueryToken) (io : Bool) (flags : FsearchQueryFlags)
    (no nc : Nat) (res : List FsearchQueryNode) (ctx : ParseCtx)
    (ht : t ≠ FsearchQueryToken.not) :
    parse_run (n + 1) (.expr_loop io flags no nc res)
        { ctx with lexer := List.replicate (2 * k + 1) FsearchQueryToken.not ++ t :: rest }
      = parse_run (n + 1) (.expr_loop io flags no nc res)
        { ctx with lexer := .not :: t :: rest } := by
  rw [List.replicate_succ]
  simp only [List.cons_append, parse_run]
  rw [consume_not_even k true t rest ht, consume_not_skip t rest true ht]

/-- C7: NOT parity folding, for every operand token (Word, Field or
EmptyField, possibly followed by its argument tokens).  A run of `2k` NOT
tokens (k ≥ 1) before an operand parses to the same output as the operand
alone (the discarded run costs one unit of fuel), and a run of `2k+1` NOT
tokens parses to the same output as a single NOT before the operand.  For
`k = 0` the even case is the syntactic identity `x = x`. -/
theorem c7_not_parity :
    (∀ (n k : Nat) (t : FsearchQueryToken) (rest : List FsearchQueryToken)
        (filters : List FsearchFilter) (flags : FsearchQueryFlags),
      is_operand_token t = true → 1 ≤ k →
      fsearch_query_parser_parse_expression (n + 1)
          (init_parse_ctx filters
            (List.replicate (2 * k) FsearchQueryToken.not ++ t :: rest)) false flags
        = fsearch_query_parser_parse_expression n
          (init_parse_ctx filters (t :: rest)) false flags)
    ∧ (∀ (n k : Nat) (t : FsearchQueryToken) (rest : List FsearchQueryToken)
        (filters : List FsearchFilter) (flags : FsearchQueryFlags),
      is_operand_token t = true →
      fsearch_query_parser_parse_expression (n + 1)
          (init_parse_ctx filters
            (List.replicate (2 * k + 1) FsearchQueryToken.not ++ t :: rest)) false flags
        = fsearch_query_parser_parse_expression (n + 1)
          (init_parse_ctx filters (FsearchQueryToken.not :: t :: rest)) false flags) := by
  constructor
  · intro n k t rest filters flags hop hk
    have ht : t ≠ FsearchQueryToken.not := by
      intro h; subst h; simp [is_operand_token] at hop
    exact expr_loop_not_even n k t rest false flags 0 0 []
      (init_parse_ctx filters []) ht hk
  · intro n k t rest filters flags hop
    have ht : t ≠ FsearchQueryToken.not := by
      intro h; subst h; simp [is_operand_token] at hop
    exact expr_loop_not_odd n k t rest false flags 0 0 []
      (init_parse_ctx filters []) ht

/-- C7 (witness): the parity statement applied at `k = 1` to the empty-field
operand `ext:` (a Field-class operand, not a Word). -/
theorem c7_not_parity_witness :
    fsearch_query_parser_parse_expression 9
        (init_parse_ctx []
          (List.replicate (2 * 1) FsearchQueryToken.not ++ [.fieldEmpty "ext"]))
        false fsearch_query_flags_none
      = fsearch_query_parser_parse_expression 8
        (init_parse_ctx [] [.fieldEmpty "ext"]) false fsearch_query_flags_none := by
  exact c7_not_parity.1 8 1 (.fieldEmpty "ext") [] [] fsearch_query_flags_none
    (by decide) (by decide)

/-- If an expression-loop call returns through the end-of-stream flush, the
operator stack of the returned context is empty: the flush at `out:` pops
every remaining stack entry. -/
theorem expr_loop_eos_empty_stack (fuel : Nat) :
    ∀ (io : Bool) (flags : FsearchQueryFlags) (no nc : Nat)
      (res : List FsearchQueryNode) (ctx : ParseCtx),
      (parse_run fuel (.expr_loop io flags no nc res) ctx).2.2 = .eos →
      (parse_run fuel (.expr_loop io flags no nc res) ctx).2.1.operator_stack = [] := by
  induction fuel with
  | zero => intro io flags no nc res ctx h; simp [parse_run] at h
  | succ n ih =>
    intro io flags no nc res ctx
    match hts : ctx.lexer with
    | [] => simp [parse_run, hts, finish_eos]
    | t :: rest =>
      cases t <;> simp only [parse_run, hts] <;>
        (repeat' split) <;> intro h <;>
        first
          | (exact ih _ _ _ _ _ _ h)
          | (simp [finish_eos]; done)
          | (simp at h; done)
          | simp_all

/-- A top-level expression-loop call (`in_open_bracket = false`) never
returns through the matching-close-bracket path: that return requires
`in_open_bracket`. -/
theorem expr_loop_no_closed_at_top (fuel : Nat) :
    ∀ (flags : FsearchQueryFlags) (no nc : Nat) (res : List FsearchQueryNode)
      (ctx : ParseCtx),
      (parse_run fuel (.expr_loop false flags no nc res) ctx).2.2 ≠ RunExit.closed := by
  induction fuel with
  | zero => intro flags no nc res ctx; simp [parse_run]
  | succ n ih =>
    intro flags no nc res ctx
    match hts : ctx.lexer with
    | [] => simp [parse_run, hts, finish_eos]
    | t :: rest =>
      cases t <;> simp only [parse_run, hts] <;>
        (repeat' split) <;> intro h <;>
        first
          | (exact ih _ _ _ _ _ h)
          | (simp [finish_eos] at h; done)
          | (simp at h; done)
          | simp_all

/-- C2 (amended): after a complete top-level parse, the operator stack is
empty on every return path *except* the unbalanced-close-bracket abort.
Concretely: whenever the top-level call returns through the end-of-stream
flush the operator stack of the final context is empty, and a top-level
call can never return through the matched-close path (that one requires
`in_open_bracket`). -/
theorem c2_operator_stack_flush :
    (∀ (fuel : Nat) (ctx : ParseCtx) (flags : FsearchQueryFlags),
      (fsearch_query_parser_parse_expression fuel ctx false flags).2.2 = RunExit.eos →
      (fsearch_query_parser_parse_expression fuel ctx false flags).2.1.operator_stack = [])
    ∧ (∀ (fuel : Nat) (ctx : ParseCtx) (flags : FsearchQueryFlags),
      (fsearch_query_parser_parse_expression fuel ctx false flags).2.2 ≠ RunExit.closed) := by
  constructor
  · intro fuel ctx flags h
    exact expr_loop_eos_empty_stack fuel false flags 0 0 [] ctx h
  · intro fuel ctx flags
    exact expr_loop_no_closed_at_top fuel flags 0 0 [] ctx

/-- C2 (witness): the flush statement applied to the concrete parse of the
single word `a`, which returns through the end-of-stream flush. -/
theorem c2_operator_stack_flush_witness :
    (fsearch_query_parser_parse_expression 5
        (init_parse_ctx [] [.word "a"]) false fsearch_query_flags_none).2.1.operator_stack
      = [] := by
  exact c2_operator_stack_flush.1 5 (init_parse_ctx [] [.word "a"])
    fsearch_query_flags_none rfl

/-- Relative excess-close-bracket predicate: reading the stream with `d`
currently unmatched open brackets, some close bracket has no matching
open. -/
def excess_at : Nat → List FsearchQueryToken → Prop
  | _, [] => False
  | d, .bracketClose :: r => d = 0 ∨ excess_at (d - 1) r
  | d, .bracketOpen :: r => excess_at (d + 1) r
  | d, _ :: r => excess_at d r

theorem count_close_cons (t : FsearchQueryToken) (l : List FsearchQueryToken) :
    count_close_brackets (t :: l)
      = count_close_brackets l + (if t = FsearchQueryToken.bracketClose then 1 else 0) := by
  simp [count_close_brackets, List.countP_cons]

theorem count_open_cons (t : FsearchQueryToken) (l : List FsearchQueryToken) :
    count_open_brackets (t :: l)
      = count_open_brackets l + (if t = FsearchQueryToken.bracketOpen then 1 else 0) := by
  simp [count_open_brackets, List.countP_cons]

/-- The prefix-count formulation of claim C3 implies the relative
formulation. -/
theorem excess_at_of_counts :
    ∀ (ts : List FsearchQueryToken) (d n : Nat),
      count_open_brackets (ts.take n) + d < count_close_brackets (ts.take n) →
      excess_at d ts := by
  intro ts
  induction ts with
  | nil =>
    intro d n h
    simp [count_open_brackets, count_close_brackets] at h
  | cons t r ih =>
    intro d n h
    match n with
    | 0 => simp [count_open_brackets, count_close_brackets] at h
    | m + 1 =>
      rw [List.take_succ_cons, count_open_cons, count_close_cons] at h
      cases t <;> simp only [reduceCtorEq, if_false, if_true, reduceIte] at h <;>
        simp only [excess_at] <;>
        first
          | exact ih d m (by omega)
          | exact ih (d + 1) m (by omega)
          | (rcases Nat.eq_zero_or_pos d with h0 | h0
             · exact Or.inl h0
             · exact Or.inr (ih (d - 1) m (by omega)))

/-- None of the state-manipulating helpers of the expression loop touches
the lexer. -/
theorem parse_operator_lexer (ctx : ParseCtx) (t : FsearchQueryToken) :
    (parse_operator ctx t).2.lexer = ctx.lexer := rfl

theorem get_implicit_lexer (ctx : ParseCtx) (last next : FsearchQueryToken) :
    (get_implicit_and_if_necessary ctx last next).2.lexer = ctx.lexer := by
  unfold get_implicit_and_if_necessary
  split <;> rfl

theorem parse_open_bracket_lexer (ctx : ParseCtx) :
    (parse_open_bracket ctx).2.lexer = ctx.lexer := by
  unfold parse_open_bracket
  exact get_implicit_lexer ctx ctx.last_token .bracketOpen

theorem parse_close_bracket_lexer (ctx : ParseCtx) :
    (parse_close_bracket ctx).2.lexer = ctx.lexer := rfl

theorem loop_append_lexer (sk : Bool) (tk lt : FsearchQueryToken)
    (res ta : List FsearchQueryNode) (ctx : ParseCtx) :
    (loop_append sk tk lt res ta ctx).2.lexer = ctx.lexer := by
  unfold loop_append
  repeat' split <;> simp [get_implicit_lexer]

/-- `consume_consecutive_not_token` only strips tokens off the front. -/
theorem consume_not_suffix :
    ∀ (ts : List FsearchQueryToken) (b : Bool),
      (consume_consecutive_not_token ts b).2 <:+ ts := by
  intro ts
  induction ts with
  | nil => intro b; simp [consume_consecutive_not_token]
  | cons t r ih =>
    intro b
    cases t <;> simp only [consume_consecutive_not_token] <;>
      first
        | exact (ih (!b)).trans (List.suffix_cons _ _)
        | exact List.suffix_refl _

/-- Stripping NOT tokens preserves the excess-close-bracket property. -/
theorem consume_not_excess :
    ∀ (ts : List FsearchQueryToken) (b : Bool) (d : Nat),
      excess_at d ts → excess_at d (consume_consecutive_not_token ts b).2 := by
  intro ts
  induction ts with
  | nil => intro b d h; simp [excess_at] at h
  | cons t r ih =>
    intro b d h
    cases t <;> simp only [consume_consecutive_not_token] <;>
      first
        | exact ih (!b) d (by simpa [excess_at] using h)
        | exact h

/-- `discard_consecutive_binary_operator_tokens` only strips tokens off the
front. -/
theorem discard_suffix :
    ∀ (ts : List FsearchQueryToken),
      discard_consecutive_binary_operator_tokens ts <:+ ts := by
  intro ts
  induction ts with
  | nil => simp [discard_consecutive_binary_operator_tokens]
  | cons t r ih =>
    cases t <;> simp only [discard_consecutive_binary_operator_tokens] <;>
      first
        | exact ih.trans (List.suffix_cons _ _)
        | exact List.suffix_refl _

/-- Discarding binary operators preserves the excess-close-bracket
property. -/
theorem discard_excess :
    ∀ (ts : List FsearchQueryToken) (d : Nat),
      excess_at d ts → excess_at d (discard_consecutive_binary_operator_tokens ts) := by
  intro ts
  induction ts with
  | nil => intro d h; simp [excess_at] at h
  | cons t r ih =>
    intro d h
    cases t <;> simp only [discard_consecutive_binary_operator_tokens] <;>
      first
        | exact ih d (by simpa [excess_at] using h)
        | exact h

/-- Main abort lemma: a top-level expression loop whose remaining stream
contains an unmatched close bracket (relative to its bracket counters),
consists only of main-loop tokens and has enough fuel left, discards its
accumulated output and returns exactly `[MatchNothing]` via the abort
path. -/
theorem bracket_drop_aux (fuel : Nat) :
    ∀ (ts : List FsearchQueryToken) (flags : FsearchQueryFlags) (no nc : Nat)
      (res : List FsearchQueryNode) (ctx : ParseCtx),
      ctx.lexer = ts →
      (∀ t ∈ ts, simple_token t = true) →
      excess_at (no - nc) ts →
      nc ≤ no →
      ts.length + 1 ≤ fuel →
      (parse_run fuel (.expr_loop false flags no nc res) ctx).1
          = [fsearch_query_node_new_match_nothing]
        ∧ (parse_run fuel (.expr_loop false flags no nc res) ctx).2.2 = RunExit.abort := by
  induction fuel with
  | zero =>
    intro ts flags no nc res ctx hlex hsimple hex hle hfuel
    omega
  | succ n ih =>
    intro ts flags no nc res ctx hlex hsimple hex hle hfuel
    cases ts with
    | nil => simp [excess_at] at hex
    | cons t rest =>
      have hfuel' : rest.length + 1 ≤ n := by
        simp only [List.length_cons] at hfuel; omega
      have hsimple' : ∀ x ∈ rest, simple_token x = true :=
        fun x hx => hsimple x (List.mem_cons_of_mem _ hx)
      cases t with
      | field s =>
        have := hsimple _ (List.mem_cons_self _ _); simp [simple_token] at this
      | fieldEmpty s =>
        have := hsimple _ (List.mem_cons_self _ _); simp [simple_token] at this
      | eos =>
        have := hsimple _ (List.mem_cons_self _ _); simp [simple_token] at this
      | none =>
        simp only [parse_run, hlex]
        exact ih rest flags no nc res _ rfl hsimple' (by simpa [excess_at] using hex)
          hle hfuel'
      | equal =>
        simp only [parse_run, hlex]
        exact ih rest flags no nc res _ rfl hsimple' (by simpa [excess_at] using hex)
          hle hfuel'
      | smaller =>
        simp only [parse_run, hlex]
        exact ih rest flags no nc res _ rfl hsimple' (by simpa [excess_at] using hex)
          hle hfuel'
      | smallerEq =>
        simp only [parse_run, hlex]
        exact ih rest flags no nc res _ rfl hsimple' (by simpa [excess_at] using hex)
          hle hfuel'
      | greater =>
        simp only [parse_run, hlex]
        exact ih rest flags no nc res _ rfl hsimple' (by simpa [excess_at] using hex)
          hle hfuel'
      | greaterEq =>
        simp only [parse_run, hlex]
        exact ih rest flags no nc res _ rfl hsimple' (by simpa [excess_at] using hex)
          hle hfuel'
      | word s =>
        simp only [parse_run, hlex]
        exact ih rest flags no nc _ _ (by rw [loop_append_lexer])
          hsimple' (by simpa [excess_at] using hex) hle hfuel'
      | and =>
        simp only [parse_run, hlex]
        split
        · exact ih rest flags no nc _ _
            (by rw [loop_append_lexer, parse_operator_lexer])
            hsimple' (by simpa [excess_at] using hex) hle hfuel'
        · exact ih rest flags no nc res _ rfl hsimple' (by simpa [excess_at] using hex)
            hle hfuel'
      | or =>
        simp only [parse_run, hlex]
        split
        · exact ih rest flags no nc _ _
            (by rw [loop_append_lexer, parse_operator_lexer])
            hsimple' (by simpa [excess_at] using hex) hle hfuel'
        · exact ih rest flags no nc res _ rfl hsimple' (by simpa [excess_at] using hex)
            hle hfuel'
      | not =>
        simp only [parse_run, hlex]
        have hsuf := consume_not_suffix rest true
        have hex2 := consume_not_excess rest true (no - nc) (by simpa [excess_at] using hex)
        have hsimple2 : ∀ x ∈ (consume_consecutive_not_token rest true).2,
            simple_token x = true := fun x hx => hsimple' x (hsuf.subset hx)
        have hfuel2 : (consume_consecutive_not_token rest true).2.length + 1 ≤ n := by
          have := hsuf.length_le; omega
        split
        · exact ih _ flags no nc _ _
            (by rw [loop_append_lexer, parse_operator_lexer, get_implicit_lexer])
            hsimple2 hex2 hle hfuel2
        · exact ih _ flags no nc res _ rfl hsimple2 hex2 hle hfuel2
      | bracketOpen =>
        simp only [parse_run, hlex]
        have hsufD := discard_suffix rest
        have harith : no + 1 - nc = (no - nc) + 1 := by omega
        have hexO : excess_at (no + 1 - nc) (discard_consecutive_binary_operator_tokens rest) := by
          rw [harith]
          exact discard_excess rest _ (by simpa [excess_at] using hex)
        have hsimpleD : ∀ x ∈ discard_consecutive_binary_operator_tokens rest,
            simple_token x = true := fun x hx => hsimple' x (hsufD.subset hx)
        have hfuelD : (discard_consecutive_binary_operator_tokens rest).length + 1 ≤ n := by
          have := hsufD.length_le; omega
        exact ih _ flags (no + 1) nc _ _
          (by rw [loop_append_lexer]; simp [parse_open_bracket_lexer])
          hsimpleD hexO (by omega) hfuelD
      | bracketClose =>
        simp only [parse_run, hlex]
        split
        · rename_i hlt
          rw [if_neg (by simp)]
          have hd : 1 ≤ no - nc := by omega
          have hexC : excess_at (no - (nc + 1)) rest := by
            have hx : no - nc = 0 ∨ excess_at (no - nc - 1) rest := by
              simpa [excess_at] using hex
            rcases hx with hx | hx
            · omega
            · have : no - (nc + 1) = no - nc - 1 := by omega
              rw [this]; exact hx
          exact ih rest flags no (nc + 1) _ _
            (by rw [loop_append_lexer, parse_close_bracket_lexer])
            hsimple' hexC (by omega) hfuel'
        · exact ⟨rfl, rfl⟩

/-- C3 (counterexample): the bracket-drop claim fails as stated once a field
sub-parser can swallow the unmatched close bracket.  On the stream of
`a ext: )` the token after `ext:` is consumed by `expect_word` inside
`parse_function_extension`, so the close bracket never reaches the main
loop: the parse returns `[Word a, MatchNothing, And]`, not `[MatchNothing]`,
although the full input prefix has more close than open brackets. -/
theorem c3_bracket_drop_counterexample :
    (fsearch_query_parser_parse_expression 9
        (init_parse_ctx [] [.word "a", .field "ext", .bracketClose])
        false fsearch_query_flags_none).1
      = [fsearch_query_node_new "a" fsearch_query_flags_none,
         fsearch_query_node_new_match_nothing,
         fsearch_query_node_new_operator .and]
    ∧ [fsearch_query_node_new "a" fsearch_query_flags_none,
       fsearch_query_node_new_match_nothing,
       fsearch_query_node_new_operator .and]
      ≠ [fsearch_query_node_new_match_nothing]
    ∧ has_excess_close_bracket [.word "a", .field "ext", .bracketClose] := by
  refine ⟨rfl, by decide, ⟨3, by decide⟩⟩

/-- C3 (amended): any top-level parse of a stream made of main-loop tokens
only (no `Field`/`EmptyField`, whose argument sub-parsers may swallow a
bracket, and no embedded `Eos`), containing at some prefix more close than
open brackets, returns exactly the one-element list `[MatchNothing]` —
given enough fuel for the stream. -/
theorem c3_bracket_drop (fuel : Nat) (ctx : ParseCtx) (flags : FsearchQueryFlags)
    (hsimple : ∀ t ∈ ctx.lexer, simple_token t = true)
    (hexcess : has_excess_close_bracket ctx.lexer)
    (hfuel : ctx.lexer.length + 1 ≤ fuel) :
    (fsearch_query_parser_parse_expression fuel ctx false flags).1
      = [fsearch_query_node_new_match_nothing] := by
  obtain ⟨n, hn⟩ := hexcess
  have hex : excess_at 0 ctx.lexer := excess_at_of_counts _ 0 n (by omega)
  exact (bracket_drop_aux fuel ctx.lexer flags 0 0 [] ctx rfl hsimple
    (by simpa using hex) (Nat.le_refl 0) hfuel).1

/-- C3 (witness): the amended statement applied to the concrete stream `)`. -/
theorem c3_bracket_drop_witness :
    (fsearch_query_parser_parse_expression 2
        (init_parse_ctx [] [.bracketClose]) false fsearch_query_flags_none).1
      = [fsearch_query_node_new_match_nothing] := by
  exact c3_bracket_drop 2 (init_parse_ctx [] [.bracketClose]) fsearch_query_flags_none
    (by decide) ⟨1, by decide⟩ (by decide)

/-! ## Termination of the parser (claim C5)

The C recursion terminates because (a) every loop iteration consumes at
least one token of the current lexer, and (b) a macro expansion pushes onto
`macro_stack` a filter that is not already there, so the expansion depth is
bounded by the registry size.  We make this precise for the fueled model:
an explicit fuel bound, computed from the stream length and the registry,
is enough for any parse — the `RunExit.fuel` marker never appears. -/

attribute [simp] parse_operator_lexer get_implicit_lexer parse_open_bracket_lexer
  parse_close_bracket_lexer loop_append_lexer

@[simp] theorem parse_operator_filters (ctx : ParseCtx) (t : FsearchQueryToken) :
    (parse_operator ctx t).2.filters = ctx.filters := rfl

@[simp] theorem parse_operator_fstack (ctx : ParseCtx) (t : FsearchQueryToken) :
    (parse_operator ctx t).2.filter_stack = ctx.filter_stack := rfl

@[simp] theorem get_implicit_filters (ctx : ParseCtx) (l n : FsearchQueryToken) :
    (get_implicit_and_if_necessary ctx l n).2.filters = ctx.filters := by
  unfold get_implicit_and_if_necessary; split <;> rfl

@[simp] theorem get_implicit_fstack (ctx : ParseCtx) (l n : FsearchQueryToken) :
    (get_implicit_and_if_necessary ctx l n).2.filter_stack = ctx.filter_stack := by
  unfold get_implicit_and_if_necessary; split <;> rfl

@[simp] theorem parse_open_bracket_filters (ctx : ParseCtx) :
    (parse_open_bracket ctx).2.filters = ctx.filters := by
  unfold parse_open_bracket; simp

@[simp] theorem parse_open_bracket_fstack (ctx : ParseCtx) :
    (parse_open_bracket ctx).2.filter_stack = ctx.filter_stack := by
  unfold parse_open_bracket; simp

@[simp] theorem parse_close_bracket_filters (ctx : ParseCtx) :
    (parse_close_bracket ctx).2.filters = ctx.filters := rfl

@[simp] theorem parse_close_bracket_fstack (ctx : ParseCtx) :
    (parse_close_bracket ctx).2.filter_stack = ctx.filter_stack := rfl

@[simp] theorem loop_append_filters (sk : Bool) (tk lt : FsearchQueryToken)
    (res ta : List FsearchQueryNode) (ctx : ParseCtx) :
    (loop_append sk tk lt res ta ctx).2.filters = ctx.filters := by
  unfold loop_append; repeat' split <;> simp

@[simp] theorem loop_append_fstack (sk : Bool) (tk lt : FsearchQueryToken)
    (res ta : List FsearchQueryNode) (ctx : ParseCtx) :
    (loop_append sk tk lt res ta ctx).2.filter_stack = ctx.filter_stack := by
  unfold loop_append; repeat' split <;> simp

theorem expect_word_len (ts : List FsearchQueryToken) :
    (expect_word ts).2.length ≤ ts.length := by
  cases ts with
  | nil => simp [expect_word]
  | cons t r => cases t <;> simp [expect_word]

/-- Every function parser of the table leaves filters and filter stack
untouched and never grows the lexer. -/
theorem parse_numeric_function_inv (ctx : ParseCtx) (ie : Bool)
    (flags : FsearchQueryFlags) (fname : String)
    (nn : FsearchQueryFlags → Int → Int → FsearchQueryNodeComparison → FsearchQueryNode)
    (pv : String → Option (Int × Int)) :
    (parse_numeric_function ctx ie flags fname nn pv).2.filters = ctx.filters
    ∧ (parse_numeric_function ctx ie flags fname nn pv).2.filter_stack = ctx.filter_stack
    ∧ (parse_numeric_function ctx ie flags fname nn pv).2.lexer.length
        ≤ ctx.lexer.length := by
  unfold parse_numeric_function
  dsimp only
  split
  · exact ⟨rfl, rfl, Nat.le_refl _⟩
  · split
    · exact ⟨rfl, rfl, Nat.le_refl _⟩
    · rename_i t rest heq
      cases t <;> dsimp only <;>
        refine ⟨rfl, rfl, ?_⟩ <;> simp only [heq, List.length_cons] <;>
        first
          | omega
          | exact (expect_word_len _).trans (Nat.le_succ _)

theorem parse_function_extension_inv (ctx : ParseCtx) (ie : Bool) (flags : FsearchQueryFlags) :
    (parse_function_extension ctx ie flags).2.filters = ctx.filters
    ∧ (parse_function_extension ctx ie flags).2.filter_stack = ctx.filter_stack
    ∧ (parse_function_extension ctx ie flags).2.lexer.length ≤ ctx.lexer.length := by
  unfold parse_function_extension
  dsimp only
  split
  · exact ⟨rfl, rfl, Nat.le_refl _⟩
  · exact ⟨rfl, rfl, expect_word_len _⟩

theorem parse_function_contenttype_inv (ctx : ParseCtx) (ie : Bool) (flags : FsearchQueryFlags) :
    (parse_function_contenttype ctx ie flags).2.filters = ctx.filters
    ∧ (parse_function_contenttype ctx ie flags).2.filter_stack = ctx.filter_stack
    ∧ (parse_function_contenttype ctx ie flags).2.lexer.length ≤ ctx.lexer.length := by
  unfold parse_function_contenttype
  dsimp only
  split
  · exact ⟨rfl, rfl, Nat.le_refl _⟩
  · exact ⟨rfl, rfl, expect_word_len _⟩

theorem parse_function_parent_inv (ctx : ParseCtx) (ie : Bool) (flags : FsearchQueryFlags) :
    (parse_function_parent ctx ie flags).2.filters = ctx.filters
    ∧ (parse_function_parent ctx ie flags).2.filter_stack = ctx.filter_stack
    ∧ (parse_function_parent ctx ie flags).2.lexer.length ≤ ctx.lexer.length := by
  unfold parse_function_parent
  dsimp only
  split
  · exact ⟨rfl, rfl, Nat.le_refl _⟩
  · exact ⟨rfl, rfl, expect_word_len _⟩

theorem parse_function_empty_inv (ctx : ParseCtx) (ie : Bool) (flags : FsearchQueryFlags) :
    (parse_function_empty ctx ie flags).2.filters = ctx.filters
    ∧ (parse_function_empty ctx ie flags).2.filter_stack = ctx.filter_stack
    ∧ (parse_function_empty ctx ie flags).2.lexer.length ≤ ctx.lexer.length :=
  ⟨rfl, rfl, Nat.le_refl _⟩

/-- Every entry of the function table preserves filters and filter stack and
never grows the lexer. -/
theorem supported_functions_inv :
    ∀ p ∈ supported_functions, ∀ (ctx : ParseCtx) (ie : Bool) (flags : FsearchQueryFlags),
      (p.2 ctx ie flags).2.filters = ctx.filters
      ∧ (p.2 ctx ie flags).2.filter_stack = ctx.filter_stack
      ∧ (p.2 ctx ie flags).2.lexer.length ≤ ctx.lexer.length := by
  intro p hp
  fin_cases hp <;> intro ctx ie flags <;>
    first
      | exact parse_numeric_function_inv ctx ie flags _ _ _
      | exact parse_function_extension_inv ctx ie flags
      | exact parse_function_contenttype_inv ctx ie flags
      | exact parse_function_parent_inv ctx ie flags
      | exact parse_function_empty_inv ctx ie flags

/-- Context invariants of every modelled call: the filter registry and the
filter (macro) stack are restored on return, and the lexer never grows. -/
theorem parse_run_ctx_inv (fuel : Nat) :
    ∀ (c : RunCall) (ctx : ParseCtx),
      (parse_run fuel c ctx).2.1.filters = ctx.filters
      ∧ (parse_run fuel c ctx).2.1.filter_stack = ctx.filter_stack
      ∧ (parse_run fuel c ctx).2.1.lexer.length ≤ ctx.lexer.length := by
  induction fuel with
  | zero => intro c ctx; cases c <;> exact ⟨rfl, rfl, Nat.le_refl _⟩
  | succ n ih =>
    intro c ctx
    cases c with
    | expr_loop io flags no nc res =>
      match hts : ctx.lexer with
      | [] => simp [parse_run, hts, finish_eos]
      | t :: rest =>
        have key : ∀ (c2 : RunCall) (ctx2 : ParseCtx),
            ctx2.filters = ctx.filters → ctx2.filter_stack = ctx.filter_stack →
            ctx2.lexer.length ≤ rest.length →
            (parse_run n c2 ctx2).2.1.filters = ctx.filters
            ∧ (parse_run n c2 ctx2).2.1.filter_stack = ctx.filter_stack
            ∧ (parse_run n c2 ctx2).2.1.lexer.length ≤ (t :: rest).length := by
          intro c2 ctx2 h1 h2 h3
          obtain ⟨g1, g2, g3⟩ := ih c2 ctx2
          exact ⟨g1.trans h1, g2.trans h2, le_trans g3 (le_trans h3 (by simp))⟩
        cases t with
        | none => exact (by simp only [parse_run, hts]; refine key _ _ ?_ ?_ ?_ <;> first | rfl | exact Nat.le_refl _)
        | equal => exact (by simp only [parse_run, hts]; refine key _ _ ?_ ?_ ?_ <;> first | rfl | exact Nat.le_refl _)
        | smaller => exact (by simp only [parse_run, hts]; refine key _ _ ?_ ?_ ?_ <;> first | rfl | exact Nat.le_refl _)
        | smallerEq => exact (by simp only [parse_run, hts]; refine key _ _ ?_ ?_ ?_ <;> first | rfl | exact Nat.le_refl _)
        | greater => exact (by simp only [parse_run, hts]; refine key _ _ ?_ ?_ ?_ <;> first | rfl | exact Nat.le_refl _)
        | greaterEq => exact (by simp only [parse_run, hts]; refine key _ _ ?_ ?_ ?_ <;> first | rfl | exact Nat.le_refl _)
        | eos =>
          refine ⟨?_, ?_, ?_⟩ <;> simp [parse_run, hts, finish_eos]
        | word s =>
          simp only [parse_run, hts]
          refine key _ _ ?_ ?_ ?_ <;> simp
        | and =>
          simp only [parse_run, hts]
          split
          · refine key _ _ ?_ ?_ ?_ <;> simp
          · refine key _ _ ?_ ?_ ?_ <;> first | rfl | exact Nat.le_refl _
        | or =>
          simp only [parse_run, hts]
          split
          · refine key _ _ ?_ ?_ ?_ <;> simp
          · refine key _ _ ?_ ?_ ?_ <;> first | rfl | exact Nat.le_refl _
        | not =>
          simp only [parse_run, hts]
          split
          · refine key _ _ ?_ ?_ ?_ <;> simp <;>
              exact (consume_not_suffix rest true).length_le
          · refine key _ _ ?_ ?_ ?_ <;>
              first
                | rfl
                | exact (consume_not_suffix rest true).length_le
        | bracketOpen =>
          simp only [parse_run, hts]
          refine key _ _ ?_ ?_ ?_ <;> simp <;>
            exact (discard_suffix _).length_le
        | bracketClose =>
          simp only [parse_run, hts]
          split
          · split
            · exact ⟨rfl, rfl, by simp⟩
            · refine key _ _ ?_ ?_ ?_ <;> simp
          · exact ⟨rfl, rfl, by simp⟩
        | field s =>
          simp only [parse_run, hts]
          obtain ⟨f1, f2, f3⟩ := ih (.field_call s false flags) { ctx with lexer := rest }
          split
          · exact ⟨f1, f2, le_trans f3 (by simp)⟩
          · refine key _ _ ?_ ?_ ?_ <;> simp [f1, f2] <;> exact f3
        | fieldEmpty s =>
          simp only [parse_run, hts]
          obtain ⟨f1, f2, f3⟩ := ih (.field_call s true flags) { ctx with lexer := rest }
          split
          · exact ⟨f1, f2, le_trans f3 (by simp)⟩
          · refine key _ _ ?_ ?_ ?_ <;> simp [f1, f2] <;> exact f3
    | field_call name ie flags =>
      simp only [parse_run]
      obtain ⟨s1, s2, s3⟩ := ih (.filter_scan 0 name flags) ctx
      split
      · exact ⟨s1, s2, s3⟩
      · split
        · exact ⟨s1, s2, s3⟩
        · split
          · rename_i m hm
            obtain ⟨m1, m2, m3⟩ := ih
              (.modifier_call ie (apply_flag_operation flags m.2.1 m.2.2)) _
            exact ⟨m1.trans s1, m2.trans s2, le_trans m3 s3⟩
          · split
            · rename_i f hf
              obtain ⟨g1, g2, g3⟩ :=
                supported_functions_inv f (List.mem_of_find?_eq_some hf) _ ie flags
              exact ⟨g1.trans s1, g2.trans s2, le_trans g3 s3⟩
            · exact ⟨s1, s2, s3⟩
    | modifier_call ie flags =>
      simp only [parse_run]
      split
      · exact ⟨rfl, rfl, Nat.le_refl _⟩
      · match hts : ctx.lexer with
        | [] => refine ⟨?_, ?_, ?_⟩ <;> simp [hts]
        | t :: rest =>
          simp only [hts]
          cases t with
          | word s => exact ⟨rfl, rfl, by simp⟩
          | bracketOpen =>
            obtain ⟨g1, g2, g3⟩ := ih (.expr_loop true flags 1 0 [])
              (parse_open_bracket { ctx with lexer := rest }).2
            have hpl : (parse_open_bracket { ctx with lexer := rest }).2.lexer.length
                = rest.length := by simp
            exact ⟨by simpa using g1, by simpa using g2,
              le_trans (le_trans g3 (le_of_eq hpl)) (by simp)⟩
          | field s =>
            obtain ⟨g1, g2, g3⟩ := ih (.field_call s false flags) { ctx with lexer := rest }
            exact ⟨g1, g2, le_trans g3 (by simp)⟩
          | fieldEmpty s =>
            obtain ⟨g1, g2, g3⟩ := ih (.field_call s true flags) { ctx with lexer := rest }
            exact ⟨g1, g2, le_trans g3 (by simp)⟩
          | none => exact ⟨rfl, rfl, by simp⟩
          | eos => exact ⟨rfl, rfl, by simp⟩
          | and => exact ⟨rfl, rfl, by simp⟩
          | or => exact ⟨rfl, rfl, by simp⟩
          | not => exact ⟨rfl, rfl, by simp⟩
          | bracketClose => exact ⟨rfl, rfl, by simp⟩
          | equal => exact ⟨rfl, rfl, by simp⟩
          | smaller => exact ⟨rfl, rfl, by simp⟩
          | smallerEq => exact ⟨rfl, rfl, by simp⟩
          | greater => exact ⟨rfl, rfl, by simp⟩
          | greaterEq => exact ⟨rfl, rfl, by simp⟩
    | filter_scan i name flags =>
      simp only [parse_run]
      match hfl : ctx.filters[i]? with
      | Option.none => exact ⟨rfl, rfl, Nat.le_refl _⟩
      | Option.some filter =>
        simp only [hfl]
        split
        · exact ih (.filter_scan (i + 1) name flags) ctx
        · split
          · exact ⟨rfl, rfl, Nat.le_refl _⟩
          · split
            · exact ⟨rfl, rfl, Nat.le_refl _⟩
            · obtain ⟨g1, g2, g3⟩ := ih
                (.expr_loop false (apply_filter_flags flags filter.flags) 0 0 [])
                { ctx with
                  lexer := filter.query,
                  operator_stack := [],
                  filter_stack := ctx.filter_stack ++ [i] }
              refine ⟨by simpa using g1, ?_, Nat.le_refl _⟩
              have h2 : (parse_run n
                  (.expr_loop false (apply_filter_flags flags filter.flags) 0 0 [])
                  { ctx with
                    lexer := filter.query,
                    operator_stack := [],
                    filter_stack := ctx.filter_stack ++ [i] }).2.1.filter_stack
                  = ctx.filter_stack ++ [i] := by simpa using g2
              simp [h2]

/-- Fuel weight of a single filter: enough for the loop iterations over its
query text plus the scan and bookkeeping overhead of one expansion. -/
def filter_weight (r : Nat) (f : FsearchFilter) : Nat := 3 * f.query.length + r + 8

/-- Total fuel weight of the filters not currently on the macro stack. -/
def fw_stack (fs : List FsearchFilter) (st : List Nat) : Nat :=
  ((fs.enum.filter (fun p => !(st.contains p.1))).map
    (fun p => filter_weight fs.length p.2)).sum

/-- Fuel weight of the free (not-on-stack) filters of a context. -/
def free_weight (ctx : ParseCtx) : Nat := fw_stack ctx.filters ctx.filter_stack

theorem sum_map_filter_le {α : Type} (w : α → Nat) (q : α → Bool) (l : List α) :
    ((l.filter q).map w).sum ≤ (l.map w).sum := by
  induction l with
  | nil => simp
  | cons b t ih =>
    by_cases hb : q b <;> simp [List.filter_cons, hb] <;> omega

theorem sum_map_filter_remove {α : Type} (w : α → Nat) (q : α → Bool) :
    ∀ (l : List α) (a : α), a ∈ l → q a = false →
      ((l.filter q).map w).sum + w a ≤ (l.map w).sum := by
  intro l
  induction l with
  | nil => intro a ha; cases ha
  | cons b t ih =>
    intro a ha hq
    rcases List.mem_cons.mp ha with rfl | hat
    · have := sum_map_filter_le w q t
      simp [List.filter_cons, hq]
      omega
    · by_cases hb : q b
      · have := ih a hat hq
        simp [List.filter_cons, hb]
        omega
      · have := ih a hat hq
        simp [List.filter_cons, hb]
        omega

/-- Pushing a free filter onto the macro stack decreases the free weight by
exactly that filter's weight (as an inequality, which is all the fuel
argument needs). -/
theorem fw_stack_push (fs : List FsearchFilter) (st : List Nat) (i : Nat)
    (f : FsearchFilter) (hf : fs[i]? = some f) (hst : st.contains i = false) :
    fw_stack fs (st ++ [i]) + filter_weight fs.length f ≤ fw_stack fs st := by
  have hmem : (i, f) ∈ fs.enum := List.mk_mem_enum_iff_getElem?.mpr hf
  have hmem2 : (i, f) ∈ fs.enum.filter (fun p => !(st.contains p.1)) :=
    List.mem_filter.mpr ⟨hmem, by simp_all⟩
  have step1 : fs.enum.filter (fun p => !((st ++ [i]).contains p.1))
      = (fs.enum.filter (fun p => !(st.contains p.1))).filter (fun p => !(p.1 == i)) := by
    rw [List.filter_filter]
    apply List.filter_congr
    intro p hp
    by_cases h1 : p.1 ∈ st <;> by_cases h2 : p.1 = i <;>
      simp [h1, h2, List.mem_append]
  have hq : (fun p : Nat × FsearchFilter => !(p.1 == i)) (i, f) = false := by simp
  have := sum_map_filter_remove (fun p : Nat × FsearchFilter => filter_weight fs.length p.2)
    (fun p => !(p.1 == i)) (fs.enum.filter (fun p => !(st.contains p.1))) (i, f) hmem2 hq
  unfold fw_stack
  rw [step1]
  exact this

/-- The free weight is bounded by the weight of the whole registry. -/
theorem fw_stack_le_total (fs : List FsearchFilter) (st : List Nat) :
    fw_stack fs st ≤ fw_stack fs [] := by
  unfold fw_stack
  have h2 : fs.enum.filter (fun p => !(([] : List Nat).contains p.1)) = fs.enum := by
    simp
  rw [h2]
  exact sum_map_filter_le _ _ _

/-- Fuel precondition of each call shape: enough fuel for three units per
remaining lexer token, the scan of the registry, and the weight of every
filter that may still be expanded. -/
def call_fuel_ok (fuel : Nat) (c : RunCall) (ctx : ParseCtx) : Prop :=
  match c with
  | .expr_loop _ _ _ _ _ =>
    3 * ctx.lexer.length + 4 + ctx.filters.length + free_weight ctx ≤ fuel
  | .field_call _ _ _ =>
    3 * ctx.lexer.length + 3 + ctx.filters.length + free_weight ctx ≤ fuel
  | .modifier_call _ _ =>
    3 * ctx.lexer.length + 2 + ctx.filters.length + free_weight ctx ≤ fuel
  | .filter_scan i _ _ =>
    (ctx.filters.length - i) + 1 + free_weight ctx ≤ fuel

/-- Termination of the parser: under the explicit fuel precondition no run
ever exhausts its fuel.  The loop consumes its lexer, and each macro
expansion moves a still-free filter onto the macro stack, whose weight pays
for the whole expansion — the cycle check guarantees an on-stack filter is
never expanded again. -/
theorem parse_run_no_fuel (fuel : Nat) :
    ∀ (c : RunCall) (ctx : ParseCtx), call_fuel_ok fuel c ctx →
      (parse_run fuel c ctx).2.2 ≠ RunExit.fuel := by
  induction fuel with
  | zero =>
    intro c ctx h
    exfalso
    cases c <;> simp [call_fuel_ok] at h
  | succ n ih =>
    intro c ctx h
    cases c with
    | expr_loop io flags no nc res =>
      match hts : ctx.lexer with
      | [] => simp [parse_run, hts, finish_eos]
      | t :: rest =>
        have h' : 3 * (rest.length + 1) + 4 + ctx.filters.length + free_weight ctx
            ≤ n + 1 := by
          simp only [call_fuel_ok, hts, List.length_cons] at h; exact h
        have key : ∀ (io2 : Bool) (fl2 : FsearchQueryFlags) (a b : Nat)
            (r2 : List FsearchQueryNode) (ctx2 : ParseCtx),
            ctx2.filters = ctx.filters → ctx2.filter_stack = ctx.filter_stack →
            ctx2.lexer.length ≤ rest.length →
            (parse_run n (.expr_loop io2 fl2 a b r2) ctx2).2.2 ≠ RunExit.fuel := by
          intro io2 fl2 a b r2 ctx2 h1 h2 h3
          apply ih
          have hfw : free_weight ctx2 = free_weight ctx := by
            unfold free_weight; rw [h1, h2]
          have hRl : ctx2.filters.length = ctx.filters.length := by rw [h1]
          simp only [call_fuel_ok, hfw, hRl]
          omega
        cases t with
        | none =>
          simp only [parse_run, hts]
          refine key _ _ _ _ _ _ ?_ ?_ ?_ <;> first | rfl | exact Nat.le_refl _
        | equal =>
          simp only [parse_run, hts]
          refine key _ _ _ _ _ _ ?_ ?_ ?_ <;> first | rfl | exact Nat.le_refl _
        | smaller =>
          simp only [parse_run, hts]
          refine key _ _ _ _ _ _ ?_ ?_ ?_ <;> first | rfl | exact Nat.le_refl _
        | smallerEq =>
          simp only [parse_run, hts]
          refine key _ _ _ _ _ _ ?_ ?_ ?_ <;> first | rfl | exact Nat.le_refl _
        | greater =>
          simp only [parse_run, hts]
          refine key _ _ _ _ _ _ ?_ ?_ ?_ <;> first | rfl | exact Nat.le_refl _
        | greaterEq =>
          simp only [parse_run, hts]
          refine key _ _ _ _ _ _ ?_ ?_ ?_ <;> first | rfl | exact Nat.le_refl _
        | eos => simp [parse_run, hts, finish_eos]
        | word s =>
          simp only [parse_run, hts]
          refine key _ _ _ _ _ _ ?_ ?_ ?_ <;> simp
        | and =>
          simp only [parse_run, hts]
          split
          · refine key _ _ _ _ _ _ ?_ ?_ ?_ <;> simp
          · refine key _ _ _ _ _ _ ?_ ?_ ?_ <;> first | rfl | exact Nat.le_refl _
        | or =>
          simp only [parse_run, hts]
          split
          · refine key _ _ _ _ _ _ ?_ ?_ ?_ <;> simp
          · refine key _ _ _ _ _ _ ?_ ?_ ?_ <;> first | rfl | exact Nat.le_refl _
        | not =>
          simp only [parse_run, hts]
          split
          · refine key _ _ _ _ _ _ ?_ ?_ ?_ <;> simp <;>
              exact (consume_not_suffix rest true).length_le
          · refine key _ _ _ _ _ _ ?_ ?_ ?_ <;>
              first
                | rfl
                | exact (consume_not_suffix rest true).length_le
        | bracketOpen =>
          simp only [parse_run, hts]
          refine key _ _ _ _ _ _ ?_ ?_ ?_ <;> simp <;>
            exact (discard_suffix _).length_le
        | bracketClose =>
          simp only [parse_run, hts]
          split
          · split
            · simp
            · refine key _ _ _ _ _ _ ?_ ?_ ?_ <;> simp
          · simp
        | field s =>
          have hpreF : call_fuel_ok n (.field_call s false flags)
              { ctx with lexer := rest } := by
            show 3 * rest.length + 3 + ctx.filters.length + free_weight ctx ≤ n
            omega
          have hnf := ih _ _ hpreF
          simp only [parse_run, hts]
          rw [if_neg hnf]
          obtain ⟨f1, f2, f3⟩ :=
            parse_run_ctx_inv n (.field_call s false flags) { ctx with lexer := rest }
          refine key _ _ _ _ _ _ ?_ ?_ ?_ <;> simp [f1, f2] <;> exact f3
        | fieldEmpty s =>
          have hpreF : call_fuel_ok n (.field_call s true flags)
              { ctx with lexer := rest } := by
            show 3 * rest.length + 3 + ctx.filters.length + free_weight ctx ≤ n
            omega
          have hnf := ih _ _ hpreF
          simp only [parse_run, hts]
          rw [if_neg hnf]
          obtain ⟨f1, f2, f3⟩ :=
            parse_run_ctx_inv n (.field_call s true flags) { ctx with lexer := rest }
          refine key _ _ _ _ _ _ ?_ ?_ ?_ <;> simp [f1, f2] <;> exact f3
    | field_call name ie flags =>
      have h' : 3 * ctx.lexer.length + 3 + ctx.filters.length + free_weight ctx
          ≤ n + 1 := by simpa [call_fuel_ok] using h
      have hpreS : call_fuel_ok n (.filter_scan 0 name flags) ctx := by
        simp only [call_fuel_ok]
        omega
      have hns := ih _ _ hpreS
      simp only [parse_run]
      rw [if_neg hns]
      obtain ⟨s1, s2, s3⟩ := parse_run_ctx_inv n (.filter_scan 0 name flags) ctx
      split
      · simp
      · split
        · rename_i m hm
          apply ih
          have hfw : free_weight (parse_run n (.filter_scan 0 name flags) ctx).2.1
              = free_weight ctx := by
            unfold free_weight; rw [s1, s2]
          simp only [call_fuel_ok, hfw, s1]
          omega
        · split
          · simp
          · simp
    | modifier_call ie flags =>
      simp only [parse_run]
      split
      · simp
      · match hts : ctx.lexer with
        | [] => simp
        | t :: rest =>
          simp only [hts]
          have h' : 3 * (rest.length + 1) + 2 + ctx.filters.length + free_weight ctx
              ≤ n + 1 := by
            simp only [call_fuel_ok, hts, List.length_cons] at h; exact h
          cases t with
          | word s => simp
          | bracketOpen =>
            have hpre2 : call_fuel_ok n (.expr_loop true flags 1 0 [])
                (parse_open_bracket { ctx with lexer := rest }).2 := by
              have hfw : free_weight (parse_open_bracket { ctx with lexer := rest }).2
                  = free_weight ctx := by
                unfold free_weight
                rw [parse_open_bracket_filters, parse_open_bracket_fstack]
              have hflt : (parse_open_bracket { ctx with lexer := rest }).2.filters
                  = ctx.filters := by simp
              simp only [call_fuel_ok, hfw]
              rw [parse_open_bracket_filters, parse_open_bracket_lexer]
              dsimp only
              omega
            have hnf := ih _ _ hpre2
            simp [hnf]
          | field s =>
            apply ih
            show 3 * rest.length + 3 + ctx.filters.length + free_weight ctx ≤ n
            omega
          | fieldEmpty s =>
            apply ih
            show 3 * rest.length + 3 + ctx.filters.length + free_weight ctx ≤ n
            omega
          | none => simp
          | eos => simp
          | and => simp
          | or => simp
          | not => simp
          | bracketClose => simp
          | equal => simp
          | smaller => simp
          | smallerEq => simp
          | greater => simp
          | greaterEq => simp
    | filter_scan i name flags =>
      simp only [parse_run]
      match hfl : ctx.filters[i]? with
      | Option.none => simp
      | Option.some filter =>
        simp only [hfl]
        have hi : i < ctx.filters.length := (List.getElem?_eq_some.mp hfl).1
        have h' : (ctx.filters.length - i) + 1 + free_weight ctx ≤ n + 1 := by
          simpa [call_fuel_ok] using h
        split
        · apply ih
          simp only [call_fuel_ok]
          omega
        · split
          · simp
          · split
            · simp
            · rename_i hnm hcont hemp
              have hc2 : ctx.filter_stack.contains i = false := by
                simpa using hcont
              have hpush := fw_stack_push ctx.filters ctx.filter_stack i filter hfl hc2
              have hpre2 : call_fuel_ok n
                  (.expr_loop false (apply_filter_flags flags filter.flags) 0 0 [])
                  { ctx with
                    lexer := filter.query,
                    operator_stack := [],
                    filter_stack := ctx.filter_stack ++ [i] } := by
                simp only [filter_weight] at hpush
                have hfw0 : free_weight ctx = fw_stack ctx.filters ctx.filter_stack := rfl
                rw [hfw0] at h'
                show 3 * filter.query.length + 4 + ctx.filters.length
                  + fw_stack ctx.filters (ctx.filter_stack ++ [i]) ≤ n
                omega
              have hnf := ih _ _ hpre2
              simp [hnf]

/-- A fuel budget sufficient for any parse from the given context: three
units per lexer token plus the weight of the whole filter registry. -/
def fsearch_sufficient_fuel (ctx : ParseCtx) : Nat :=
  3 * ctx.lexer.length + 4 + ctx.filters.length + fw_stack ctx.filters []

/-- C5: parsing terminates for every macro registry and every input, even if
a filter macro references itself directly or through a chain of macros.
Part one: with the explicit fuel budget `fsearch_sufficient_fuel` the parse
never exhausts its fuel (so the unbounded C recursion it models terminates
with the finite output list of the model).  Part two, the mechanism: a
filter that is already on the macro stack is rejected by the cycle check of
`parse_filter_macros` rather than expanded again — the scan returns the
empty (NULL) expansion and leaves the context untouched. -/
theorem c5_macro_cycle_termination :
    (∀ (ctx : ParseCtx) (in_open_bracket : Bool) (flags : FsearchQueryFlags),
      (fsearch_query_parser_parse_expression (fsearch_sufficient_fuel ctx) ctx
          in_open_bracket flags).2.2 ≠ RunExit.fuel)
    ∧ (∀ (fuel i : Nat) (name : String) (flags : FsearchQueryFlags) (ctx : ParseCtx)
        (filter : FsearchFilter),
        ctx.filters[i]? = Option.some filter →
        filter.m_name = name →
        ctx.filter_stack.contains i = true →
        parse_run (fuel + 1) (.filter_scan i name flags) ctx = ([], ctx, .ok)) := by
  constructor
  · intro ctx io flags
    apply parse_run_no_fuel
    have htot := fw_stack_le_total ctx.filters ctx.filter_stack
    show 3 * ctx.lexer.length + 4 + ctx.filters.length + free_weight ctx
      ≤ fsearch_sufficient_fuel ctx
    unfold fsearch_sufficient_fuel free_weight
    omega
  · intro fuel i name flags ctx filter hf hname hcont
    have hmem : i ∈ ctx.filter_stack := by simpa using hcont
    simp [parse_run, hf, hname, hcont]
    intro h1
    exact absurd hmem h1

/-- C5 (witness): the cycle-rejection mechanism applied to a concrete
registry whose single filter `A` is already on the macro stack. -/
theorem c5_macro_cycle_termination_witness :
    parse_run 5
        (.filter_scan 0 "A" fsearch_query_flags_none)
        { lexer := []
          operator_stack := []
          filter_stack := [0]
          last_token := .none
          filters := [⟨"A", [.field "A"], fsearch_query_flags_none⟩]
          size_parse_fn := fun _ => Option.none
          date_parse_fn := fun _ => Option.none
          int_parse_fn := fun _ => Option.none }
      = ([],
         { lexer := []
           operator_stack := []
           filter_stack := [0]
           last_token := .none
           filters := [⟨"A", [.field "A"], fsearch_query_flags_none⟩]
           size_parse_fn := fun _ => Option.none
           date_parse_fn := fun _ => Option.none
           int_parse_fn := fun _ => Option.none },
         .ok) := by
  exact c5_macro_cycle_termination.2 4 0 "A" fsearch_query_flags_none _ _ rfl rfl rfl
